import Mathlib

/-!
Verification development for the quiz-converter repository
(`scripts/quiz_converter.py` and `scripts/update_index.py`).

Python strings are modelled as `List Char` (one entry per Unicode code
point, matching CPython's `str`).  The regular-expression operations used
by the scripts are embedded as explicit executable scanners that follow
Python's leftmost / greedy / non-greedy backtracking semantics for the
concrete patterns appearing in the code; `\s` is modelled by the Unicode
white-space set and `\d` by the ASCII decimal digits.
-/

set_option maxRecDepth 4000

abbrev Str := List Char

/-- The apostrophe character `'` (code point 39). -/
def apos : Char := Char.ofNat 39

/-- The backslash character (code point 92). -/
def bsl : Char := Char.ofNat 92

/-- White space as matched by Python's `\s` (Unicode mode) and stripped by
`str.strip()`: the Unicode white-space code points. -/
def isPySpace (c : Char) : Bool :=
  c.toNat = 32 || (9 ≤ c.toNat && c.toNat ≤ 13) ||
  (28 ≤ c.toNat && c.toNat ≤ 31) || c.toNat = 133 || c.toNat = 160 ||
  c.toNat = 5760 || (8192 ≤ c.toNat && c.toNat ≤ 8202) ||
  c.toNat = 8232 || c.toNat = 8233 || c.toNat = 8239 || c.toNat = 8287 ||
  c.toNat = 12288

/-- ASCII decimal digits, the model of `\d` used by the scripts. -/
def isDigitCh (c : Char) : Bool := 48 ≤ c.toNat && c.toNat ≤ 57

/-- `str.strip()`: remove white space from both ends. -/
def pyStrip (s : Str) : Str :=
  ((s.dropWhile isPySpace).reverse.dropWhile isPySpace).reverse

/-- Boolean test that `pat` is a prefix of `s`. -/
def isPre : Str → Str → Bool
  | [], _ => true
  | _ :: _, [] => false
  | a :: pa, b :: sb => a = b && isPre pa sb

/-- Decimal digits of a natural number, most significant first
(fuel-driven accumulator form; the fuel bounds the digit count), as
produced by Python's `str(n)`. -/
def natStrF : Nat → Nat → Str → Str
  | 0, _, acc => acc
  | fuel + 1, n, acc =>
    if n < 10 then Char.ofNat (48 + n) :: acc
    else natStrF fuel (n / 10) (Char.ofNat (48 + n % 10) :: acc)

/-- Python `str(n)` for a natural number. -/
def natStr (n : Nat) : Str := natStrF (n + 1) n []

/-- `s.replace("\\'", "'")`: left-to-right non-overlapping replacement of a
backslash-apostrophe pair by an apostrophe (lines 64–66 of
`quiz_converter.py`). -/
def unesc : Str → Str
  | [] => []
  | [c] => [c]
  | c1 :: c2 :: rest =>
    if c1 = bsl ∧ c2 = apos then apos :: unesc rest
    else c1 :: unesc (c2 :: rest)

/-- Closing of a run of `n` consecutive underscores under
`re.sub(r'_{2,}', '_' * 11, ·)`: runs of length at least two are replaced
by exactly eleven underscores, shorter runs are kept. -/
def undRun (n : Nat) : Str :=
  if n = 0 then [] else if n = 1 then ['_'] else List.replicate 11 '_'

/-- Single pass of the underscore substitution, carrying the length `n`
of the pending underscore run. -/
def undGo : Nat → Str → Str
  | n, [] => undRun n
  | n, c :: rest =>
    if c = '_' then undGo (n + 1) rest
    else undRun n ++ c :: undGo 0 rest

/-- `re.sub(r'_{2,}', '_' * 11, ·)` (line 49): every maximal run of two or
more underscores is replaced by exactly eleven underscores (for this
pattern, the leftmost-greedy matches are exactly the maximal runs). -/
def normUnd (s : Str) : Str := undGo 0 s

/-- Greedy `\s*` followed by `\n` with backtracking: consume the leading
white-space run and stop right after its last newline; `none` when the
run contains no newline. -/
def wsNl : Str → Option Str → Option Str
  | [], best => best
  | c :: rest, best =>
    if isPySpace c then wsNl rest (if c = '\n' then some rest else best)
    else best

/-- Match of the block separator `\n\d+\s*/\s*\d+\s*\n` (line 37) at the
head of `s`; returns the remaining suffix after the match. -/
def matchSep (s : Str) : Option Str :=
  match s with
  | [] => none
  | c :: rest =>
    if c = '\n' then
      if (rest.takeWhile isDigitCh).isEmpty then none
      else
        match (rest.dropWhile isDigitCh).dropWhile isPySpace with
        | '/' :: r2 =>
          let r3 := r2.dropWhile isPySpace
          if (r3.takeWhile isDigitCh).isEmpty then none
          else wsNl (r3.dropWhile isDigitCh) none
        | _ => none
    else none

/-- `re.split` on the block separator: scan left to right, cut at each
leftmost separator match (fuel-driven; the fuel `s.length` dominates the
number of scan steps). -/
def pySplitF : Nat → Str → Str → List Str
  | 0, s, acc => [acc.reverse ++ s]
  | _ + 1, [], acc => [acc.reverse]
  | fuel + 1, s@(c :: rest), acc =>
    match matchSep s with
    | some after => acc.reverse :: pySplitF fuel after []
    | none => pySplitF fuel rest (c :: acc)

/-- The fragment list produced by `re.split(r'\n\d+\s*/\s*\d+\s*\n', text)`. -/
def pySplit (s : Str) : List Str := pySplitF s.length s []

/-- The question-text extraction `re.search(r'^(.*?)\nA\.', part, re.DOTALL)`
(line 44): the prefix of `part` before its first occurrence of `"\nA."`,
or `none` when there is no such occurrence. -/
def qSplit : Str → Option Str
  | [] => none
  | s@(c :: rest) =>
    if isPre (("\nA.").toList) s then some []
    else (qSplit rest).map (c :: ·)

/-- Header of one option, `[A-D]\.\s*\n` (line 53), matched at the head of
`s`; returns the suffix at which the captured group starts. -/
def optHeader : Str → Option Str
  | c :: '.' :: rest =>
    if 'A' ≤ c ∧ c ≤ 'D' then wsNl rest none else none
  | _ => none

/-- The lookahead `(?=\n[A-D]\.|Hint|$)` tested at a suffix `u` of the
fragment (`$` matches at the end of the string and just before a final
newline). -/
def lookAt (u : Str) : Bool :=
  (match u with
   | '\n' :: d :: '.' :: _ => decide ('A' ≤ d ∧ d ≤ 'D')
   | _ => false) ||
  isPre (("Hint").toList) u || u.isEmpty ||
  (match u with | ['\n'] => true | _ => false)

/-- Non-greedy capture `(.*?)` up to the first suffix satisfying
`lookAt`; returns the captured group and the suffix where the lookahead
matched. -/
def takeGroup : Str → Str × Str
  | [] => ([], [])
  | u@(c :: rest) =>
    if lookAt u then ([], u)
    else
      let p := takeGroup rest
      (c :: p.1, p.2)

/-- `re.finditer(r'[A-D]\.\s*\n(.*?)(?=\n[A-D]\.|Hint|$)', part, re.DOTALL)`
(lines 53–54): the list of captured groups of the successive leftmost
non-overlapping matches. -/
def optFindF : Nat → Str → List Str
  | 0, _ => []
  | _ + 1, [] => []
  | fuel + 1, s@(_ :: rest) =>
    match optHeader s with
    | some contentSfx =>
      let p := takeGroup contentSfx
      p.1 :: optFindF fuel p.2
    | none => optFindF fuel rest

/-- All raw option groups recovered from a fragment. -/
def optFind (s : Str) : List Str := optFindF s.length s

/-- The option-collecting loop of lines 54–57: strip each group and keep
the non-empty results, in order. -/
def buildOpts (l : List Str) : List Str :=
  l.foldl (fun acc g => let t := pyStrip g; if t.isEmpty then acc else acc ++ [t]) []

/-- The options of a fragment after the final `\'`-unescaping (line 66). -/
def optionsOf (part : Str) : List Str := (buildOpts (optFind part)).map unesc

/-- The lookahead `(?=\n\d+\s*/\s*\d+|$)` of the hint pattern (line 60). -/
def sepLook (u : Str) : Bool :=
  match u with
  | '\n' :: w =>
    if (w.takeWhile isDigitCh).isEmpty then false
    else
      match (w.dropWhile isDigitCh).dropWhile isPySpace with
      | '/' :: r2 =>
        !(((r2.dropWhile isPySpace).takeWhile isDigitCh).isEmpty)
      | _ => false
  | _ => false

/-- Lookahead of the hint capture: block separator ahead, or `$`. -/
def hintLook (u : Str) : Bool :=
  sepLook u || u.isEmpty || (match u with | ['\n'] => true | _ => false)

/-- Non-greedy hint capture `(.*?)` up to the first suffix satisfying
`hintLook`. -/
def takeHint : Str → Str
  | [] => []
  | u@(c :: rest) => if hintLook u then [] else c :: takeHint rest

/-- Suffix after the first newline (`.*?\n`, non-greedy), if any. -/
def dropToNl : Str → Option Str
  | [] => none
  | c :: rest => if c = '\n' then some rest else dropToNl rest

/-- `re.search(r'Hint.*?\n.*?\n(.*?)(?=\n\d+\s*/\s*\d+|$)', part, re.DOTALL)`
(line 60): scan for the first occurrence of `Hint` followed by at least two
newlines, and capture from just after the second newline up to the first
position where the lookahead holds. -/
def hintScanF : Nat → Str → Option Str
  | 0, _ => none
  | _ + 1, [] => none
  | fuel + 1, s@(_ :: rest) =>
    if isPre (("Hint").toList) s then
      match dropToNl (s.drop 4) with
      | some a1 =>
        match dropToNl a1 with
        | some a2 => some (takeHint a2)
        | none => hintScanF fuel rest
      | none => hintScanF fuel rest
    else hintScanF fuel rest

/-- The hint of a fragment: captured group, stripped, `\'`-unescaped;
empty when the pattern does not match (lines 60–61, 65). -/
def hintOf (part : Str) : Str :=
  match hintScanF part.length part with
  | some g => unesc (pyStrip g)
  | none => []

/-- One parsed quiz question as built by `parse_quiz` (lines 69–73);
`correct_answer` models the optional dict key read back by
`create_html_quiz` via `q.get('correct_answer', 0)`, never set by
`parse_quiz`. -/
structure Question where
  question : Str
  options : List Str
  hint : Str
  correct_answer : Option Nat := none
deriving Repr, DecidableEq

/-- Question text of a fragment: group before `"\nA."`, stripped,
underscore-normalized, `\'`-unescaped (lines 48–49, 64); `[]` when the
question pattern does not match. -/
def questionTextOf (part : Str) : Str :=
  match qSplit part with
  | none => []
  | some raw => unesc (normUnd (pyStrip raw))

/-- Processing of one fragment inside the `parse_quiz` loop
(lines 39–73). -/
def processFragment (part : Str) : Option Question :=
  if (pyStrip part).isEmpty then none
  else
    match qSplit part with
    | none => none
    | some raw =>
      let qt := unesc (normUnd (pyStrip raw))
      let opts := (buildOpts (optFind part)).map unesc
      if ¬qt.isEmpty ∧ 4 ≤ opts.length then
        some ⟨qt, opts.take 4, hintOf part, none⟩
      else none

/-- `parse_quiz` (lines 32–75). -/
def parse_quiz (text : Str) : List Question :=
  (pySplit text).filterMap processFragment

/-- `determine_correct_answer` (lines 77–85): the placeholder that always
returns index 0. -/
def determine_correct_answer (_question : Str) (_options : List Str) : Nat := 0

/-- One element of the serialized `quizData` array (lines 91–98). -/
structure QEntry where
  q : Str
  options : List Str
  answer : Nat
  hint : Str
deriving Repr, DecidableEq

/-- The `quiz_data` list built by `create_html_quiz` (lines 91–98):
`answer` is `q.get('correct_answer', 0)`. -/
def createQuizData (qs : List Question) : List QEntry :=
  qs.map fun q => ⟨q.question, q.options, q.correct_answer.getD 0, q.hint⟩

/-! ### JSON serialization (`json.dumps(quiz_data, indent=8)`, line 379) -/

/-- Lowercase hexadecimal digit, as in Python's `'%04x'` formatting. -/
def hexDig (n : Nat) : Char :=
  if n < 10 then Char.ofNat (48 + n) else Char.ofNat (87 + n)

/-- Four-digit lowercase hexadecimal rendering of `n < 0x10000`. -/
def hex4 (n : Nat) : Str :=
  [hexDig (n / 4096 % 16), hexDig (n / 256 % 16), hexDig (n / 16 % 16), hexDig (n % 16)]

/-- JSON escaping of one character by `json.dumps` with its default
`ensure_ascii=True`: quote and backslash get two-character escapes, the
control characters BS HT LF FF CR get their short escapes, every other
character outside `0x20`–`0x7e` is `\uXXXX`-escaped, as a surrogate pair
above `0xFFFF`. -/
def escJsonChar (c : Char) : Str :=
  if c = '"' then [bsl, '"']
  else if c = bsl then [bsl, bsl]
  else if c = '\x08' then [bsl, 'b']
  else if c = '\t' then [bsl, 't']
  else if c = '\n' then [bsl, 'n']
  else if c = '\x0c' then [bsl, 'f']
  else if c = '\r' then [bsl, 'r']
  else if 32 ≤ c.toNat ∧ c.toNat ≤ 126 then [c]
  else if c.toNat < 65536 then bsl :: 'u' :: hex4 c.toNat
  else
    (bsl :: 'u' :: hex4 (55296 + (c.toNat - 65536) / 1024)) ++
    (bsl :: 'u' :: hex4 (56320 + (c.toNat - 65536) % 1024))

/-- JSON escaping of a whole string body. -/
def escJson : Str → Str
  | [] => []
  | c :: rest => escJsonChar c ++ escJson rest

/-- A JSON string literal: quoted escaped body. -/
def jstr (s : Str) : Str := '"' :: (escJson s ++ ['"'])

/-- Separator-joined concatenation, as in `str.join`. -/
def joinSep (sep : Str) : List Str → Str
  | [] => []
  | [x] => x
  | x :: y :: rest => x ++ sep ++ joinSep sep (y :: rest)

def ind8 : Str := ("        ").toList
def ind16 : Str := ("                ").toList
def ind24 : Str := ("                        ").toList

/-- `json.dumps` of the inner options list at nesting depth 2 with
`indent=8` (empty containers stay on one line). -/
def dumpOpts (os : List Str) : Str :=
  match os with
  | [] => ("[]").toList
  | _ =>
    ("[\n").toList ++ joinSep ((",\n").toList) (os.map (fun o => ind24 ++ jstr o)) ++
    ("\n").toList ++ ind16 ++ ("]").toList

/-- `json.dumps` of one `quizData` entry (a four-key dict with insertion
order `q`, `options`, `answer`, `hint`) at nesting depth 1 with
`indent=8`. -/
def dumpEntry (e : QEntry) : Str :=
  ind8 ++ ("\x7b\n").toList ++
  ind16 ++ ("\x22q\x22: ").toList ++ jstr e.q ++ (",\n").toList ++
  ind16 ++ ("\x22options\x22: ").toList ++ dumpOpts e.options ++ (",\n").toList ++
  ind16 ++ ("\x22answer\x22: ").toList ++ natStr e.answer ++ (",\n").toList ++
  ind16 ++ ("\x22hint\x22: ").toList ++ jstr e.hint ++ ("\n").toList ++
  ind8 ++ ("\x7d").toList

/-- `json.dumps(quiz_data, indent=8)` (line 379). -/
def dumpsQuizData (es : List QEntry) : Str :=
  match es with
  | [] => ("[]").toList
  | _ =>
    ("[\n").toList ++ joinSep ((",\n").toList) (es.map dumpEntry) ++ ("\n]").toList

/-! ### JSON decoding of the embedded array (`json.loads` specialised to
the exact layout `json.dumps(·, indent=8)` emits) -/

/-- Value of a hexadecimal digit character. -/
def hexVal (c : Char) : Option Nat :=
  if 48 ≤ c.toNat ∧ c.toNat ≤ 57 then some (c.toNat - 48)
  else if 97 ≤ c.toNat ∧ c.toNat ≤ 102 then some (c.toNat - 87)
  else if 65 ≤ c.toNat ∧ c.toNat ≤ 70 then some (c.toNat - 55)
  else none

/-- Four hexadecimal digits. -/
def parseHex4 : Str → Option (Nat × Str)
  | a :: b :: c :: d :: rest =>
    match hexVal a, hexVal b, hexVal c, hexVal d with
    | some x, some y, some z, some w => some (((x * 16 + y) * 16 + z) * 16 + w, rest)
    | _, _, _, _ => none
  | _ => none

/-- A JSON string escape after the backslash, including surrogate-pair
recombination as done by `json.loads`. -/
def parseEsc : Str → Option (Char × Str)
  | [] => none
  | c :: rest =>
    if c = '"' then some ('"', rest)
    else if c = bsl then some (bsl, rest)
    else if c = '/' then some ('/', rest)
    else if c = 'b' then some ('\x08', rest)
    else if c = 'f' then some ('\x0c', rest)
    else if c = 'n' then some ('\n', rest)
    else if c = 'r' then some ('\r', rest)
    else if c = 't' then some ('\t', rest)
    else if c = 'u' then
      (parseHex4 rest).bind fun p =>
        if 55296 ≤ p.1 ∧ p.1 < 56320 then
          match p.2 with
          | e1 :: e2 :: rest3 =>
            if e1 = bsl ∧ e2 = 'u' then
              (parseHex4 rest3).bind fun q =>
                if 56320 ≤ q.1 ∧ q.1 < 57344 then
                  some (Char.ofNat (65536 + (p.1 - 55296) * 1024 + (q.1 - 56320)), q.2)
                else none
            else none
          | _ => none
        else if 56320 ≤ p.1 ∧ p.1 < 57344 then none
        else some (Char.ofNat p.1, p.2)
    else none

/-- Body of a JSON string after the opening quote (strict mode: raw
control characters are rejected); returns the decoded body and the
suffix after the closing quote. -/
def parseJStrF : Nat → Str → Option (Str × Str)
  | 0, _ => none
  | _ + 1, [] => none
  | fuel + 1, c :: rest =>
    if c = '"' then some ([], rest)
    else if c = bsl then
      (parseEsc rest).bind fun p =>
        (parseJStrF fuel p.2).map fun q => (p.1 :: q.1, q.2)
    else if c.toNat < 32 then none
    else (parseJStrF fuel rest).map fun q => (c :: q.1, q.2)

/-- A quoted JSON string starting at `s`. -/
def parseQStr (s : Str) : Option (Str × Str) :=
  match s with
  | c :: rest => if c = '"' then parseJStrF rest.length rest else none
  | [] => none

/-- A run of decimal digits as a natural number. -/
def parseNatDigits (s : Str) : Option (Nat × Str) :=
  let ds := s.takeWhile isDigitCh
  if ds.isEmpty then none
  else some (ds.foldl (fun a c => a * 10 + (c.toNat - 48)) 0, s.dropWhile isDigitCh)

/-- Exact-prefix token consumption. -/
def expectTok (tok : Str) (s : Str) : Option Str :=
  if isPre tok s then some (s.drop tok.length) else none

/-- Items of a non-empty serialized options list, positioned at the
opening quote of an item (fuel bounds the item count). -/
def parseOptsLoop : Nat → Str → Option (List Str × Str)
  | 0, _ => none
  | fuel + 1, s =>
    (parseQStr s).bind fun p =>
      match p.2 with
      | ',' :: rest2 =>
        (expectTok (("\n").toList ++ ind24) rest2).bind fun rest3 =>
          (parseOptsLoop fuel rest3).map fun q => (p.1 :: q.1, q.2)
      | '\n' :: rest2 =>
        (expectTok (ind16 ++ ("]").toList) rest2).map fun r => ([p.1], r)
      | _ => none

/-- A serialized options array, positioned at its `[`. -/
def parseOptsArr (s : Str) : Option (List Str × Str) :=
  match s with
  | '[' :: rest =>
    match rest with
    | ']' :: r2 => some ([], r2)
    | _ =>
      (expectTok (("\n").toList ++ ind24) rest).bind fun r2 =>
        parseOptsLoop (r2.length + 1) r2
  | _ => none

/-- One serialized `quizData` entry, positioned at its leading indent. -/
def parseEntry (s : Str) : Option (QEntry × Str) :=
  (expectTok (ind8 ++ ("\x7b\n").toList ++ ind16 ++ ("\x22q\x22: ").toList) s).bind fun s1 =>
    (parseQStr s1).bind fun pq =>
      (expectTok ((",\n").toList ++ ind16 ++ ("\x22options\x22: ").toList) pq.2).bind fun s3 =>
        (parseOptsArr s3).bind fun pos =>
          (expectTok ((",\n").toList ++ ind16 ++ ("\x22answer\x22: ").toList) pos.2).bind fun s5 =>
            (parseNatDigits s5).bind fun pa =>
              (expectTok ((",\n").toList ++ ind16 ++ ("\x22hint\x22: ").toList) pa.2).bind fun s7 =>
                (parseQStr s7).bind fun ph =>
                  (expectTok (("\n").toList ++ ind8 ++ ("\x7d").toList) ph.2).map fun s9 =>
                    (⟨pq.1, pos.1, pa.1, ph.1⟩, s9)

/-- Entries of a non-empty serialized `quizData` array (fuel bounds the
entry count). -/
def parseEntriesLoop : Nat → Str → Option (List QEntry × Str)
  | 0, _ => none
  | fuel + 1, s =>
    (parseEntry s).bind fun p =>
      match p.2 with
      | ',' :: rest2 =>
        (expectTok (("\n").toList) rest2).bind fun rest3 =>
          (parseEntriesLoop fuel rest3).map fun q => (p.1 :: q.1, q.2)
      | '\n' :: rest2 =>
        match rest2 with
        | ']' :: r3 => some ([p.1], r3)
        | _ => none
      | _ => none

/-- `json.loads` of a complete extracted `quizData` array text,
specialised to the layout `json.dumps(·, indent=8)` produces
(`update_index.py` line 40). -/
def parseQuizData (s : Str) : Option (List QEntry) :=
  match s with
  | '[' :: rest =>
    match rest with
    | [']'] => some []
    | '\n' :: r2 =>
      (parseEntriesLoop (r2.length + 1) r2).bind fun p =>
        if p.2.isEmpty then some p.1 else none
    | _ => none
  | _ => none

/-! ### The HTML template of `create_html_quiz` (lines 101–495),
transcribed literally; the three `{quiz_title}` interpolations, the
`{len(questions)}` count, the `{email}` address and the serialized
`quizData` are spliced between fixed segments. -/

def htmlSegA : Str :=
  ("<!DOCTYPE html>\n<html lang=\x22en\x22>\n<head>\n    <meta charset=\x22UTF-8\x22>\n    <meta name=\x22viewport\x22 content=\x22width=device-width, initial-scale=1.0\x22>\n    <title>").toList

def htmlSegB : Str :=
  ("</title>\n    <style>\n        * \x7b box-sizing: border-box; \x7d\n        body \x7b \n            font-family: -apple-system, BlinkMacSystemFont, \x27Segoe UI\x27, Roboto, Oxygen, Ubuntu, Cantarell, sans-serif;\n            background: linear-gradient(135deg, #667eea 0%, #764ba2 100%);\n            display: flex;\n            justify-content: center;\n            align-items: center;\n            min-height: 100vh;\n            margin: 0;\n            padding: 15px;\n        \x7d\n        .app-container \x7b \n            background: white;\n            width: 100%;\n            max-width: 650px;\n            padding: 35px;\n            border-radius: 16px;\n            box-shadow: 0 8px 30px rgba(0,0,0,0.2);\n            text-align: center;\n        \x7d\n        h1 \x7b \n            color: #2d3748;\n            font-size: 28px;\n            margin-bottom: 10px;\n            font-weight: 700;\n        \x7d\n        .subtitle \x7b\n            color: #718096;\n            font-size: 14px;\n            margin-bottom: 25px;\n        \x7d\n        .question-text \x7b \n            font-size: 18px;\n            margin-bottom: 25px;\n            color: #2d3748;\n            line-height: 1.6;\n            font-weight: 500;\n        \x7d\n        .options-grid \x7b \n  ").toList ++
  ("          display: grid;\n            gap: 12px;\n            margin-bottom: 15px;\n        \x7d\n        button \x7b \n            padding: 14px 20px;\n            font-size: 16px;\n            cursor: pointer;\n            border: 2px solid #e2e8f0;\n            background: white;\n            border-radius: 10px;\n            transition: all 0.2s ease;\n            color: #2d3748;\n            font-weight: 500;\n            text-align: left;\n        \x7d\n        button:hover:not(:disabled) \x7b \n            background-color: #f7fafc;\n            border-color: #cbd5e0;\n            transform: translateY(-2px);\n            box-shadow: 0 4px 12px rgba(0,0,0,0.1);\n        \x7d\n        button:active:not(:disabled) \x7b\n            transform: translateY(0);\n        \x7d\n        .correct \x7b \n            background-color: #c6f6d5 !important;\n            border-color: #68d391 !important;\n            color: #22543d !important;\n        \x7d\n        .wrong \x7b \n            background-color: #fed7d7 !important;\n            border-color: #fc8181 !important;\n            color: #742a2a !important;\n        \x7d\n        .hidden \x7b display: none; \x7d\n        #next-btn \x7b \n            background: linear-gradient(135deg, #667eea 0%, #764ba2 100%);").toList ++
  ("\n            color: white;\n            border: none;\n            margin-top: 20px;\n            font-weight: 600;\n            width: 100%;\n            padding: 16px;\n            font-size: 17px;\n        \x7d\n        #next-btn:hover \x7b \n            opacity: 0.9;\n            transform: translateY(-2px);\n        \x7d\n        #hint-btn \x7b \n            background-color: #fef5e7;\n            border-color: #f9e79f;\n            color: #7d6608;\n            font-size: 14px;\n            padding: 10px 18px;\n            margin-bottom: 20px;\n            display: inline-block;\n            text-align: center;\n        \x7d\n        #hint-btn:hover \x7b \n            background-color: #fdeaa6;\n        \x7d\n        #hint-text \x7b \n            background-color: #fffbf0;\n            border-left: 4px solid #f9c74f;\n            padding: 15px;\n            margin-bottom: 20px;\n            font-size: 14px;\n            color: #5a5a5a;\n            text-align: left;\n            border-radius: 6px;\n            line-height: 1.5;\n        \x7d\n        .progress-container \x7b \n            width: 100%;\n            background-color: #e2e8f0;\n            border-radius: 10px;\n            margin-bottom: 20px;\n            height: 10px;\n           ").toList ++
  (" overflow: hidden;\n        \x7d\n        .progress-bar \x7b \n            height: 100%;\n            background: linear-gradient(90deg, #667eea 0%, #764ba2 100%);\n            border-radius: 10px;\n            width: 0%;\n            transition: width 0.4s ease;\n        \x7d\n        #progress-text \x7b\n            font-size: 14px;\n            color: #718096;\n            margin-bottom: 20px;\n            font-weight: 600;\n        \x7d\n        #feedback \x7b\n            min-height: 28px;\n            font-weight: 600;\n            margin-top: 15px;\n            font-size: 16px;\n            padding: 10px;\n            border-radius: 8px;\n        \x7d\n        .feedback-correct \x7b\n            background-color: #c6f6d5;\n            color: #22543d;\n        \x7d\n        .feedback-wrong \x7b\n            background-color: #fed7d7;\n            color: #742a2a;\n        \x7d\n        .submit-btn \x7b \n            background: linear-gradient(135deg, #48bb78 0%, #38a169 100%);\n            color: white;\n            border: none;\n            font-weight: 600;\n            margin-top: 20px;\n            padding: 16px 30px;\n            font-size: 18px;\n            border-radius: 10px;\n            width: 100%;\n            cursor: pointer;\n          ").toList ++
  ("  transition: all 0.2s ease;\n        \x7d\n        .submit-btn:hover \x7b \n            opacity: 0.9;\n            transform: translateY(-2px);\n        \x7d\n        input[type=text] \x7b \n            padding: 14px;\n            margin-bottom: 15px;\n            width: 100%;\n            border: 2px solid #e2e8f0;\n            border-radius: 8px;\n            font-size: 16px;\n            transition: border-color 0.2s;\n        \x7d\n        input[type=text]:focus \x7b\n            outline: none;\n            border-color: #667eea;\n        \x7d\n        .score-display \x7b\n            font-size: 48px;\n            font-weight: 700;\n            color: #667eea;\n            margin: 20px 0;\n        \x7d\n        .results-message \x7b\n            font-size: 18px;\n            color: #4a5568;\n            margin-bottom: 30px;\n            line-height: 1.6;\n        \x7d\n        .restart-btn \x7b\n            background: #f7fafc;\n            color: #4a5568;\n            border: 2px solid #e2e8f0;\n            padding: 12px 24px;\n            font-size: 14px;\n            margin-top: 15px;\n        \x7d\n        .restart-btn:hover \x7b\n            background: #edf2f7;\n        \x7d\n        @media (max-width: 480px) \x7b\n            .app-container \x7b\n                ").toList ++
  ("padding: 25px 20px;\n            \x7d\n            h1 \x7b\n                font-size: 24px;\n            \x7d\n            .question-text \x7b\n                font-size: 16px;\n            \x7d\n            button \x7b\n                padding: 12px 16px;\n                font-size: 15px;\n            \x7d\n        \x7d\n    </style>\n</head>\n<body>\n\n<div class=\x22app-container\x22>\n    <div id=\x22quiz-box\x22>\n        <h1>📚 ").toList

def htmlSegC : Str :=
  ("</h1>\n        <p class=\x22subtitle\x22>Test your knowledge</p>\n        \n        <div class=\x22progress-container\x22><div class=\x22progress-bar\x22 id=\x22progress-bar\x22></div></div>\n        <p id=\x22progress-text\x22>Question 1 of ").toList

def htmlSegD : Str :=
  ("</p>\n        \n        <p class=\x22question-text\x22 id=\x22question\x22>Loading...</p>\n        \n        <button id=\x22hint-btn\x22 onclick=\x22toggleHint()\x22>💡 Show Hint</button>\n        <div id=\x22hint-text\x22 class=\x22hidden\x22></div>\n        \n        <div class=\x22options-grid\x22 id=\x22options\x22></div>\n        \n        <div id=\x22feedback\x22></div>\n        \n        <button id=\x22next-btn\x22 class=\x22hidden\x22 onclick=\x22nextQuestion()\x22>Next Question →</button>\n    </div>\n\n    <div id=\x22result-box\x22 class=\x22hidden\x22>\n        <h1>🎉 Quiz Complete!</h1>\n        \n        <div class=\x22score-display\x22 id=\x22score-display\x22></div>\n        <p class=\x22results-message\x22>Great job completing the quiz!</p>\n        \n        <p style=\x22font-size:15px; color:#718096; margin-bottom:20px;\x22>\n            Enter your name to submit your results:\n        </p>\n        \n        <form action=\x22https://formsubmit.co/").toList

def htmlSegE : Str :=
  ("\x22 method=\x22POST\x22>\n            <input type=\x22hidden\x22 name=\x22_subject\x22 value=\x22New ").toList

def htmlSegF : Str :=
  (" Submission!\x22>\n            <input type=\x22hidden\x22 name=\x22_captcha\x22 value=\x22false\x22>\n            <input type=\x22hidden\x22 name=\x22_template\x22 value=\x22table\x22>\n            \n            <input type=\x22text\x22 name=\x22Student Name\x22 placeholder=\x22Your Name\x22 required>\n            <input type=\x22hidden\x22 name=\x22Final Score\x22 id=\x22input-score\x22>\n            <input type=\x22hidden\x22 name=\x22Questions Wrong\x22 id=\x22input-wrong\x22>\n            <input type=\x22hidden\x22 name=\x22Hints Used On\x22 id=\x22input-hints\x22>\n            <input type=\x22hidden\x22 name=\x22Completion Time\x22 id=\x22input-time\x22>\n            \n            <button type=\x22submit\x22 class=\x22submit-btn\x22>📤 Submit Results</button>\n        </form>\n        \n        <button onclick=\x22location.reload()\x22 class=\x22restart-btn\x22>🔄 Restart Quiz</button>\n    </div>\n</div>\n\n<script>\n    ").toList

def htmlSegTail : Str :=
  ("\n\n    let currentIdx = 0;\n    let score = 0;\n    let hintsUsed = [];\n    let wrongAnswers = [];\n    let startTime = Date.now();\n\n    const questionEl = document.getElementById(\x22question\x22);\n    const optionsEl = document.getElementById(\x22options\x22);\n    const progressText = document.getElementById(\x22progress-text\x22);\n    const progressBar = document.getElementById(\x22progress-bar\x22);\n    const feedbackEl = document.getElementById(\x22feedback\x22);\n    const nextBtn = document.getElementById(\x22next-btn\x22);\n    const quizBox = document.getElementById(\x22quiz-box\x22);\n    const resultBox = document.getElementById(\x22result-box\x22);\n    const hintBtn = document.getElementById(\x22hint-btn\x22);\n    const hintText = document.getElementById(\x22hint-text\x22);\n    const inputScore = document.getElementById(\x22input-score\x22);\n    const inputWrong = document.getElementById(\x22input-wrong\x22);\n    const inputHints = document.getElementById(\x22input-hints\x22);\n    const inputTime = document.getElementById(\x22input-time\x22);\n    const scoreDisplay = document.getElementById(\x22score-display\x22);\n\n    function loadQuestion() \x7b\n        const currentData = quizData[currentIdx];\n        questionEl.textContent = currentData.q;\n        progressText.tex").toList ++
  ("tContent = `Question $\x7bcurrentIdx + 1\x7d of $\x7bquizData.length\x7d`;\n        \n        hintText.classList.add(\x22hidden\x22);\n        hintText.textContent = currentData.hint;\n        hintBtn.textContent = \x22💡 Show Hint\x22;\n        hintBtn.style.display = \x22inline-block\x22;\n        \n        const progressPercent = (currentIdx / quizData.length) * 100;\n        progressBar.style.width = `$\x7bprogressPercent\x7d%`;\n        \n        optionsEl.innerHTML = \x22\x22;\n        feedbackEl.textContent = \x22\x22;\n        feedbackEl.className = \x22\x22;\n        nextBtn.classList.add(\x22hidden\x22);\n\n        currentData.options.forEach((opt, index) => \x7b\n            const btn = document.createElement(\x22button\x22);\n            btn.textContent = opt;\n            btn.onclick = () => checkAnswer(index, btn);\n            optionsEl.appendChild(btn);\n        \x7d);\n    \x7d\n\n    function toggleHint() \x7b\n        if (hintText.classList.contains(\x22hidden\x22)) \x7b\n            hintText.classList.remove(\x22hidden\x22);\n            hintBtn.textContent = \x22🙈 Hide Hint\x22;\n            const qNum = currentIdx + 1;\n            if (!hintsUsed.includes(qNum)) \x7b\n                hintsUsed.push(qNum);\n            \x7d\n        \x7d else \x7b\n            hintText.classList.add(\x22hidden\x22);\n        ").toList ++
  ("    hintBtn.textContent = \x22💡 Show Hint\x22;\n        \x7d\n    \x7d\n\n    function checkAnswer(selectedIndex, btnElement) \x7b\n        const currentData = quizData[currentIdx];\n        const buttons = optionsEl.querySelectorAll(\x22button\x22);\n        buttons.forEach(btn => btn.disabled = true);\n\n        if (selectedIndex === currentData.answer) \x7b\n            btnElement.classList.add(\x22correct\x22);\n            feedbackEl.textContent = \x22✅ Correct! Well done!\x22;\n            feedbackEl.className = \x22feedback-correct\x22;\n            score++;\n        \x7d else \x7b\n            btnElement.classList.add(\x22wrong\x22);\n            feedbackEl.textContent = \x22❌ Incorrect. The correct answer is highlighted.\x22;\n            feedbackEl.className = \x22feedback-wrong\x22;\n            buttons[currentData.answer].classList.add(\x22correct\x22);\n            wrongAnswers.push(currentIdx + 1);\n        \x7d\n        \n        nextBtn.classList.remove(\x22hidden\x22);\n    \x7d\n\n    function nextQuestion() \x7b\n        currentIdx++;\n        if (currentIdx < quizData.length) \x7b\n            loadQuestion();\n        \x7d else \x7b\n            showResults();\n        \x7d\n    \x7d\n\n    function showResults() \x7b\n        quizBox.classList.add(\x22hidden\x22);\n        resultBox.classList.remove(\x22hidd").toList ++
  ("en\x22);\n        \n        const percentage = Math.round((score / quizData.length) * 100);\n        scoreDisplay.textContent = `$\x7bscore\x7d / $\x7bquizData.length\x7d`;\n        \n        const timeElapsed = Math.round((Date.now() - startTime) / 1000);\n        const minutes = Math.floor(timeElapsed / 60);\n        const seconds = timeElapsed % 60;\n        const timeString = `$\x7bminutes\x7dm $\x7bseconds\x7ds`;\n\n        inputScore.value = `$\x7bscore\x7d / $\x7bquizData.length\x7d ($\x7bpercentage\x7d%)`;\n        inputWrong.value = wrongAnswers.length > 0 ? wrongAnswers.join(\x22, \x22) : \x22None\x22;\n        inputHints.value = hintsUsed.length > 0 ? hintsUsed.join(\x22, \x22) : \x22None\x22;\n        inputTime.value = timeString;\n    \x7d\n\n    loadQuestion();\n</script>\n\n</body>\n</html>").toList
/-- The literal text `const quizData = ` preceding the serialized array
in the template (line 379). -/
def quizMarker : Str := ("const quizData = ").toList

/-- `quizMarker` followed by the opening bracket, i.e. the fixed text an
extraction of the embedded array must locate. -/
def quizMarkerB : Str := ("const quizData = [").toList

/-- Default recipient address of `create_html_quiz` (line 87). -/
def defaultEmail : Str := ("lena.lubnina@gmail.com").toList

/-- Everything `create_html_quiz` renders before `const quizData = `. -/
def htmlBefore (title : Str) (nQuestions : Nat) (email : Str) : Str :=
  htmlSegA ++ title ++ htmlSegB ++ title ++ htmlSegC ++ natStr nQuestions ++
  htmlSegD ++ email ++ htmlSegE ++ title ++ htmlSegF

/-- `create_html_quiz(questions, quiz_title, email)` (lines 87–497). -/
def create_html_quiz (questions : List Question) (title : Str) (email : Str) : Str :=
  htmlBefore title questions.length email ++ quizMarker ++
  dumpsQuizData (createQuizData questions) ++ (";").toList ++ htmlSegTail

/-! ### `update_index.py` -/

/-- Group capture of `re.search(r'const quizData = (\[.*?\]);', ·, re.DOTALL)`
continued from the character after `const quizData = `: scan for the first
`];` pair and return everything up to and including that `]`. -/
def groupTake : Str → Option Str
  | [] => none
  | [_] => none
  | x :: y :: rest =>
    if x = ']' ∧ y = ';' then some [x]
    else (groupTake (y :: rest)).map (x :: ·)

/-- Leftmost match of `const quizData = (\[.*?\]);` (line 37 of
`update_index.py`): at each position where the literal text followed by
`[` occurs, the non-greedy group succeeds exactly when a `];` follows;
otherwise the scan moves right. -/
def findQuizGroup : Str → Option Str
  | [] => none
  | s@(_ :: rest) =>
    if isPre quizMarkerB s then
      match groupTake (s.drop 17) with
      | some g => some g
      | none => findQuizGroup rest
    else findQuizGroup rest

/-- Leftmost match of `<title>(.*?)</title>` (line 33, no DOTALL): at each
occurrence of `<title>`, capture up to the first `</title>` reached
without crossing a newline; on failure the scan moves right. -/
def titleCapture : Str → Option Str
  | [] => none
  | s@(c :: rest) =>
    if isPre (("</title>").toList) s then some []
    else if c = '\n' then none
    else (titleCapture rest).map (c :: ·)

def findTitle : Str → Option Str
  | [] => none
  | s@(_ :: rest) =>
    if isPre (("<title>").toList) s then
      match titleCapture (s.drop 7) with
      | some t => some t
      | none => findTitle rest
    else findTitle rest

/-- Lowercasing, `str.lower()` (modelled by per-character
`Char.toLower`). -/
def toLowerStr (s : Str) : Str := s.map Char.toLower

/-- Boolean substring test, Python's `pat in s`. -/
def containsSub (pat : Str) : Str → Bool
  | [] => pat.isEmpty
  | s@(_ :: rest) => isPre pat s || containsSub pat rest

/-- Boolean suffix test. -/
def isSuf (pat s : Str) : Bool := isPre pat.reverse s.reverse

/-- Index of the last occurrence of a character. -/
def lastIdxOf (c : Char) (s : Str) : Option Nat :=
  match s with
  | [] => none
  | x :: rest =>
    match lastIdxOf c rest with
    | some i => some (i + 1)
    | none => if x = c then some 0 else none

/-- `pathlib.Path(name).stem`: the name without its final suffix; a
leading or trailing dot is not a suffix separator. -/
def pathStem (n : Str) : Str :=
  match lastIdxOf '.' n with
  | none => n
  | some i => if i = 0 ∨ i + 1 = n.length then n else n.take i

/-- `get_icon_for_quiz` (lines 72–93). -/
def get_icon_for_quiz (title : Str) : Str :=
  let t := toLowerStr title
  if containsSub (("graph").toList) t || containsSub (("trends").toList) t ||
     containsSub (("data").toList) t then ("📊").toList
  else if containsSub (("ielts").toList) t || containsSub (("preparation").toList) t then
    ("📝").toList
  else if containsSub (("vocabulary").toList) t || containsSub (("word").toList) t then
    ("📖").toList
  else if containsSub (("grammar").toList) t then ("✍️").toList
  else if containsSub (("sweetener").toList) t || containsSub (("nutrition").toList) t then
    ("🍬").toList
  else if containsSub (("masld").toList) t || containsSub (("liver").toList) t then
    ("🧬").toList
  else if containsSub (("science").toList) t then ("🔬").toList
  else if containsSub (("math").toList) t then ("🔢").toList
  else ("📚").toList

/-- `generate_description` (lines 95–108). -/
def generate_description (title : Str) : Str :=
  let t := toLowerStr title
  if containsSub (("graph").toList) t && containsSub (("trends").toList) t then
    ("Master the terminology used to describe data trends, patterns, and changes in graphs and visualizations.").toList
  else if containsSub (("ielts").toList) t || containsSub (("preparation").toList) t then
    ("Test your knowledge of IELTS Task 1 structure, vocabulary, and writing techniques for academic reports.").toList
  else if containsSub (("vocabulary").toList) t then
    ("Expand your vocabulary and test your understanding of key terms and expressions.").toList
  else if containsSub (("grammar").toList) t then
    ("Practice essential grammar rules and improve your language skills.").toList
  else
    ("Test your knowledge with this interactive quiz.").toList

/-- The summary record built by `extract_quiz_info` (lines 26–70). -/
structure QuizInfo where
  filename : Str
  title : Str
  description : Str
  question_count : Nat
  estimated_time : Nat
  icon : Str
deriving Repr, DecidableEq

/-- `extract_quiz_info` (lines 26–70): `content` is the file's text, or
`none` when reading it raises (the outer `except` branch, lines 61–70). -/
def extract_quiz_info (filename : Str) (content : Option Str) : QuizInfo :=
  match content with
  | none =>
    ⟨filename, pathStem filename,
     ("Test your knowledge with this interactive quiz.").toList, 10, 5, ("📚").toList⟩
  | some c =>
    let title :=
      match findTitle c with
      | some t => t
      | none => pathStem filename
    let question_count :=
      match findQuizGroup c with
      | some g =>
        match parseQuizData g with
        | some arr => arr.length
        | none => 10
      | none => 10
    ⟨filename, title, generate_description title, question_count,
     max 5 ((question_count + 1) / 2), get_icon_for_quiz title⟩
def cardSeg1 : Str := ("        <a href=\x22").toList

def cardSeg2 : Str := ("\x22 class=\x22quiz-card\x22>\n            <div class=\x22quiz-icon\x22>").toList

def cardSeg3 : Str := ("</div>\n            <h2 class=\x22quiz-title\x22>").toList

def cardSeg4 : Str := ("</h2>\n            <p class=\x22quiz-description\x22>\n                ").toList

def cardSeg5 : Str := ("\n            </p>\n            <div class=\x22quiz-meta\x22>\n                <span>⏱️ ~").toList

def cardSeg6 : Str := (" minutes</span>\n                <span>❓ ").toList

def cardSeg7 : Str := (" questions</span>\n            </div>\n            <button class=\x22btn-start\x22>Start Quiz →</button>\n        </a>\n").toList
/-- `create_quiz_card_html` (lines 110–124). -/
def create_quiz_card_html (i : QuizInfo) : Str :=
  cardSeg1 ++ i.filename ++ cardSeg2 ++ i.icon ++ cardSeg3 ++ i.title ++
  cardSeg4 ++ i.description ++ cardSeg5 ++ natStr i.estimated_time ++
  cardSeg6 ++ natStr i.question_count ++ cardSeg7

/-- The flat directory the index pipeline works in: file names with their
contents. -/
structure FS where
  files : List (Str × Str)
deriving Repr, DecidableEq

/-- Content of a named file, if present. -/
def lookupFile (fs : FS) (name : Str) : Option Str :=
  (fs.files.find? (fun p => p.1 == name)).map (·.2)

/-- Whole-file write: replace the content when the name exists, create
the file otherwise. -/
def writeFile (fs : FS) (name content : Str) : FS :=
  if fs.files.any (fun p => p.1 == name) then
    ⟨fs.files.map (fun p => if p.1 == name then (p.1, content) else p)⟩
  else ⟨fs.files ++ [(name, content)]⟩

/-- Lexicographic (code-point) string order, Python's `str` comparison. -/
def lexLe : Str → Str → Bool
  | [], _ => true
  | _ :: _, [] => false
  | a :: as, b :: bs => if a = b then lexLe as bs else decide (a < b)

def insertLex (x : Str) : List Str → List Str
  | [] => [x]
  | y :: rest => if lexLe x y then x :: y :: rest else y :: insertLex x rest

/-- `sorted` on strings (insertion sort by `lexLe`). -/
def sortLex (l : List Str) : List Str := l.foldr insertLex []

/-- `find_quiz_files` (lines 12–24): all `*.html` names (the glob does not
match hidden files) except `index.html` and `uploader.html`, sorted. -/
def find_quiz_files (fs : FS) : List Str :=
  sortLex ((fs.files.map (·.1)).filter fun n =>
    isSuf ((".html").toList) n && !(isPre ((".").toList) n) &&
    !(n == ("index.html").toList) && !(n == ("uploader.html").toList))

/-- The card-list container opening marker `<div class="quiz-grid">`. -/
def gridMarker : Str := ("<div class=\x22quiz-grid\x22>").toList

/-- Index of the first occurrence of `pat` in `s` (Python `str.find`,
with `none` for `-1`). -/
def findSubIdx (pat : Str) : Str → Option Nat
  | [] => if pat.isEmpty then some 0 else none
  | s@(_ :: rest) =>
    if isPre pat s then some 0
    else (findSubIdx pat rest).map (· + 1)

/-- The nested-`div` counting loop of `update_index_html`
(lines 146–157): starting just after the opening marker with count 1,
`<div ` increments, `</div>` decrements, and the position of the
decrement reaching zero is returned; `none` when the scan runs off the
end. -/
def divScan : Str → Nat → Nat → Option Nat
  | [], _, _ => none
  | s@(_ :: rest), pos, count =>
    if isPre (("<div ").toList) s then divScan rest (pos + 1) (count + 1)
    else if isPre (("</div>").toList) s then
      if count = 1 then some pos
      else divScan rest (pos + 1) (count - 1)
    else divScan rest (pos + 1) count

/-- `update_index_html(quiz_cards_html)` (lines 126–171): returns the
directory state after the call together with the function's boolean
result. -/
def update_index_html (cards : Str) (fs : FS) : FS × Bool :=
  match lookupFile fs (("index.html").toList) with
  | none => (fs, false)
  | some content =>
    match findSubIdx gridMarker content with
    | none => (fs, false)
    | some gs =>
      match findSubIdx (("</div>").toList) (content.drop gs) with
      | none => (fs, false)
      | some ge0 =>
        let ge := (divScan (content.drop (gs + 23)) (gs + 23) 1).getD (gs + ge0)
        let newGrid := gridMarker ++ ("\n").toList ++ cards ++ ("\n    </div>").toList
        let newContent := content.take gs ++ newGrid ++ content.drop (ge + 6)
        (writeFile fs (("index.html").toList) newContent, true)

/-- Observable outcome of one run of `update_index.py`: the directory
state, the process exit status, and whether a failure diagnostic was
printed (the `Error:`/`❌` messages; the zero-file `⚠️` message is a
warning, not an error). -/
structure RunResult where
  fs : FS
  exitCode : Nat
  errorReported : Bool
deriving Repr, DecidableEq

/-- `main` of `update_index.py` (lines 173–201).  The script never calls
`sys.exit` and `main` returns normally on every path, so the interpreter
exit status is 0 throughout. -/
def update_index_main (fs : FS) : RunResult :=
  let qfiles := find_quiz_files fs
  if qfiles.isEmpty then ⟨fs, 0, false⟩
  else
    let infos := qfiles.map fun name => extract_quiz_info name (lookupFile fs name)
    let cards := joinSep (("\n").toList) (infos.map create_quiz_card_html)
    let res := update_index_html cards fs
    ⟨res.1, 0, !res.2⟩

/-! ### Auxiliary definitions used by the verification statements -/

/-- First index of an adjacent pair `a, b` in `s`. -/
def firstPair (a b : Char) : Str → Option Nat
  | [] => none
  | [_] => none
  | x :: y :: rest =>
    if x = a ∧ y = b then some 0
    else (firstPair a b (y :: rest)).map (· + 1)

/-- Whether an adjacent pair `a, b` occurs in `s`. -/
def hasPair (a b : Char) : Str → Bool
  | [] => false
  | [_] => false
  | x :: y :: rest => (x = a && y = b) || hasPair a b (y :: rest)

/-- The embedded-array re-extraction performed by `extract_quiz_info`
(lines 37–40 of `update_index.py`): locate `const quizData = (\[.*?\]);`
and JSON-decode the captured group. -/
def extractQuizArray (content : Str) : Option (List QEntry) :=
  match findQuizGroup content with
  | some g => parseQuizData g
  | none => none

/-- Reasoning-side form of the decimal digits of `n` (equal to `natStr`,
see `natStr_eq_natDigitsRec`). -/
def natDigitsRec (n : Nat) : Str :=
  if n < 10 then [Char.ofNat (48 + n)]
  else natDigitsRec (n / 10) ++ [Char.ofNat (48 + n % 10)]
termination_by n
decreasing_by exact Nat.div_lt_self (by omega) (by omega)

/-- The spec's worked example input (§8 of the specification). -/
def specExampleText : Str :=
  ("1 / 4\nFill in the blank: cats ____ dogs.\nA.\nlike\nB.\n*chase*\nC.\nrun\nD.\nsleep\nHint\nThink about predators\nThey often chase.\n").toList

/-- A fragment whose fourth option strips to the empty string (the
captured group of `D.` is empty because the `Hint` lookahead fires at its
start). -/
def emptyOptFragment : Str :=
  ("Q\nA.\nw\nB.\nx\nC.\ny\nD.\nHint about stuff\nmore").toList

/-- A plain well-formed fragment with four unmarked options. -/
def plainFragment : Str :=
  ("Which?\nA.\nnorth\nB.\nsouth\nC.\neast\nD.\nwest\n").toList

/-- A second plain block, preceded by a counter line so that the block
separator applies. -/
def plainText2 : Str :=
  ("intro\n1 / 2\nPick one\nA.\nred\nB.\ngreen\nC.\nblue\nD.\ngray\nHint\nh\nlook around\n").toList

/-- Title used by the concrete rendering scenarios. -/
def titleW : Str := ("Colors").toList

/-- Concrete quiz document for the round-trip scenario. -/
def docW : List Question :=
  [⟨("Pick one").toList,
    [("red").toList, ("green").toList, ("blue").toList, ("gray").toList],
    ("look around").toList, none⟩]

/-- Concrete quiz document whose hint contains the two characters `];`,
defeating the non-greedy extraction. -/
def docX : List Question :=
  [⟨("Pick one").toList,
    [("red").toList, ("green").toList, ("blue").toList, ("gray").toList],
    ("a]; b").toList, none⟩]

/-- A listing artifact whose card-list region holds one old card. -/
def idxContentC4 : Str :=
  ("<body><div class=\x22quiz-grid\x22>OLD CARD</div><footer></footer></body>").toList

/-- What the same artifact would hold if the region were rewritten with
an empty card list. -/
def idxContentC4Empty : Str :=
  ("<body><div class=\x22quiz-grid\x22>\n\n    </div><footer></footer></body>").toList

/-- Directory with a listing artifact but no quiz artifacts. -/
def fsC4 : FS := ⟨[((("index.html").toList), idxContentC4)]⟩

/-- Directory with one quiz artifact and no listing artifact. -/
def fsC5 : FS := ⟨[((("quiz1.html").toList), ("<p>hello</p>").toList)]⟩

/-- Listing artifact content with a nested container inside the card
region. -/
def idxContentC9 : Str :=
  ("HEAD<div class=\x22quiz-grid\x22>old<div x>two</div>three</div>TAIL</div>").toList

/-- Directory for the region-replacement scenario. -/
def fsC9 : FS := ⟨[((("index.html").toList), idxContentC9)]⟩

/-! ## Theorems -/

/-! ### Underscore normalization (claim C7) -/

theorem undRun_of_two_le {n : Nat} (h : 2 ≤ n) : undRun n = List.replicate 11 '_' := by
  unfold undRun
  rw [if_neg (by omega), if_neg (by omega)]

theorem undGo_underscore (n : Nat) (rest : Str) :
    undGo n ('_' :: rest) = undGo (n + 1) rest := by
  simp [undGo]

theorem undGo_other {c : Char} (h : ¬c = '_') (n : Nat) (rest : Str) :
    undGo n (c :: rest) = undRun n ++ c :: undGo 0 rest := by
  simp [undGo, h]

theorem undGo_replicate (k : Nat) (n : Nat) (rest : Str) :
    undGo n (List.replicate k '_' ++ rest) = undGo (n + k) rest := by
  induction k generalizing n with
  | zero => simp
  | succ k ih =>
    rw [List.replicate_succ, List.cons_append, undGo_underscore, ih]
    ring_nf

theorem undGo_nil (n : Nat) : undGo n [] = undRun n := rfl

theorem undGo_append {a : Str} (b : Str) (n : Nat)
    (h : ∃ c, a.getLast? = some c ∧ ¬c = '_') :
    undGo n (a ++ b) = undGo n a ++ undGo 0 b := by
  induction a generalizing n with
  | nil => simp at h
  | cons x t ih =>
    match t with
    | [] =>
      obtain ⟨c, hc, hne⟩ := h
      simp at hc
      subst hc
      rw [List.cons_append, List.nil_append, undGo_other hne, undGo_other hne]
      simp [undGo_nil, undRun]
    | y :: t' =>
      have h' : ∃ c, (y :: t').getLast? = some c ∧ ¬c = '_' := by
        obtain ⟨c, hc, hne⟩ := h
        exact ⟨c, by (rw [List.getLast?_cons_cons] at hc; exact hc), hne⟩
      by_cases hx : x = '_'
      · subst hx
        rw [List.cons_append, undGo_underscore, undGo_underscore, ih _ h']
      · rw [List.cons_append, undGo_other hx, undGo_other hx, ih _ h']
        simp

theorem undGo_idem (s : Str) : ∀ n : Nat, undGo 0 (undGo n s) = undGo n s := by
  induction s with
  | nil =>
    intro n
    match n with
    | 0 => rfl
    | 1 => rfl
    | n + 2 =>
      rw [undGo_nil, undRun_of_two_le (by omega)]
      rw [show List.replicate 11 '_' = List.replicate 11 '_' ++ ([] : Str) by simp]
      rw [undGo_replicate]
      rfl
  | cons c rest ih =>
    intro n
    by_cases hc : c = '_'
    · subst hc
      rw [undGo_underscore, ih]
    · rw [undGo_other hc]
      match n with
      | 0 =>
        rw [show undRun 0 ++ c :: undGo 0 rest = c :: undGo 0 rest from rfl]
        rw [undGo_other hc, ih]
        rfl
      | 1 =>
        rw [show undRun 1 = ['_'] from rfl]
        rw [List.cons_append, List.nil_append, undGo_underscore, undGo_other hc, ih]
        rfl
      | n + 2 =>
        rw [undRun_of_two_le (by omega), undGo_replicate, undGo_other hc, ih]
        rw [undRun_of_two_le (by omega)]

/-- C7: the underscore normalization of the question text replaces every
maximal run of `n ≥ 2` underscores (one bounded by a non-underscore or a
string end on each side) by exactly eleven underscores, and it is
idempotent. -/
theorem claim_C7 :
    (∀ (a : Str) (n : Nat) (b : Str),
        (a = [] ∨ ∃ c, a.getLast? = some c ∧ ¬c = '_') →
        (b = [] ∨ ∃ c, b.head? = some c ∧ ¬c = '_') →
        2 ≤ n →
        normUnd (a ++ List.replicate n '_' ++ b) =
          normUnd a ++ List.replicate 11 '_' ++ normUnd b) ∧
    (∀ s : Str, normUnd (normUnd s) = normUnd s) := by
  constructor
  · intro a n b ha hb hn
    have core : undGo 0 (List.replicate n '_' ++ b) =
        List.replicate 11 '_' ++ undGo 0 b := by
      rw [undGo_replicate]
      rcases hb with hb | ⟨c, hc, hne⟩
      · subst hb
        rw [undGo_nil, undGo_nil, undRun_of_two_le (by omega)]
        rfl
      · match b, hc with
        | c :: b', rfl =>
          rw [undGo_other hne, undGo_other hne, undRun_of_two_le (by omega)]
          rfl
    rcases ha with ha | ha
    · subst ha
      simpa [normUnd] using core
    · unfold normUnd
      rw [List.append_assoc, undGo_append _ 0 ha, core, List.append_assoc]
  · intro s
    exact undGo_idem s 0

/-- Witness for C7 at concrete inputs. -/
theorem claim_C7_witness :
    normUnd (("ab").toList ++ List.replicate 4 '_' ++ ("cd").toList) =
      normUnd (("ab").toList) ++ List.replicate 11 '_' ++ normUnd (("cd").toList) ∧
    normUnd (normUnd (("x__y_").toList)) = normUnd (("x__y_").toList) :=
  ⟨claim_C7.1 (("ab").toList) 4 (("cd").toList)
      (Or.inr ⟨'b', by decide, by decide⟩)
      (Or.inr ⟨'c', by decide, by decide⟩) (by omega),
   claim_C7.2 (("x__y_").toList)⟩

/-! ### Correct-answer index (claims C1, C2) -/

theorem mem_parse_quiz_correct_answer {text : Str} {q : Question}
    (h : q ∈ parse_quiz text) : q.correct_answer = none := by
  unfold parse_quiz at h
  rw [List.mem_filterMap] at h
  obtain ⟨part, -, hp⟩ := h
  unfold processFragment at hp
  split at hp
  · simp at hp
  · split at hp
    · simp at hp
    · dsimp only at hp
      split at hp
      · simp only [Option.some.injEq] at hp
        rw [← hp]
      · simp at hp

/-- C1 (amended): no marker detection takes place anywhere in the
pipeline — the rendered `quizData` copies every parsed question's options
verbatim (inline markers included) and sets every correct-answer index to
0. -/
theorem claim_C1 (text : Str) :
    createQuizData (parse_quiz text) =
      (parse_quiz text).map (fun q => ⟨q.question, q.options, 0, q.hint⟩) := by
  unfold createQuizData
  apply List.map_congr_left
  intro q hq
  rw [mem_parse_quiz_correct_answer hq]
  rfl

/-- C1 counterexample: on the spec's own worked example, the option
`*chase*` keeps its asterisk wrapper and the correct-answer index is 0,
not 1. -/
theorem claim_C1_counterexample :
    (createQuizData (parse_quiz specExampleText)).map
        (fun e => (e.options.get? 1, e.answer)) =
      [(some (("*chase*").toList), 0)] := by decide

/-- C2: every entry of the rendered `quizData` carries correct-answer
index 0 (in particular for blocks with four unmarked options). -/
theorem claim_C2 (text : Str) (e : QEntry)
    (h : e ∈ createQuizData (parse_quiz text)) : e.answer = 0 := by
  unfold createQuizData at h
  rw [List.mem_map] at h
  obtain ⟨q, hq, rfl⟩ := h
  simp [mem_parse_quiz_correct_answer hq]

/-- Witness for C2 at a concrete four-option block. -/
theorem claim_C2_witness :
    (⟨("Which?").toList,
      [("north").toList, ("south").toList, ("east").toList, ("west").toList],
      0, []⟩ : QEntry) ∈ createQuizData (parse_quiz plainFragment) ∧
    (⟨("Which?").toList,
      [("north").toList, ("south").toList, ("east").toList, ("west").toList],
      0, []⟩ : QEntry).answer = 0 :=
  ⟨by decide, claim_C2 plainFragment _ (by decide)⟩

/-! ### Fragment emission (claims C6, C10) -/

theorem pyStrip_empty_all_space {s : Str} (h : pyStrip s = []) :
    ∀ c ∈ s, isPySpace c = true := by
  unfold pyStrip at h
  rw [List.reverse_eq_nil_iff, List.dropWhile_eq_nil_iff] at h
  have h2 : ∀ c ∈ s.dropWhile isPySpace, isPySpace c = true := by
    intro c hc
    exact h c (by simpa using hc)
  intro c hc
  rw [← List.takeWhile_append_dropWhile (p := isPySpace) (l := s), List.mem_append] at hc
  rcases hc with hc | hc
  · exact List.mem_takeWhile_imp hc
  · exact h2 c hc

theorem isPre_nA {c : Char} {rest : Str}
    (h : isPre (("\nA.").toList) (c :: rest) = true) :
    ∃ r2, rest = 'A' :: r2 := by
  have hL : ("\nA.").toList = '\n' :: 'A' :: '.' :: [] := rfl
  rw [hL] at h
  match rest with
  | [] => simp [isPre] at h
  | a :: r2 =>
    simp only [isPre, Bool.and_eq_true, decide_eq_true_eq] at h
    exact ⟨r2, by rw [← h.2.1]⟩

theorem qSplit_of_all_space {s : Str} (h : ∀ c ∈ s, isPySpace c = true) :
    qSplit s = none := by
  induction s with
  | nil => rfl
  | cons c rest ih =>
    by_cases hp : isPre (("\nA.").toList) (c :: rest) = true
    · obtain ⟨r2, rfl⟩ := isPre_nA hp
      have := h 'A' (by simp)
      simp [isPySpace] at this
    · unfold qSplit
      rw [if_neg hp]
      rw [ih (fun d hd => h d (List.mem_cons_of_mem c hd))]
      rfl

theorem qSplit_some_strip_ne {part : Str} {raw : Str} (h : qSplit part = some raw) :
    ¬(pyStrip part).isEmpty = true := by
  intro hs
  rw [List.isEmpty_iff] at hs
  rw [qSplit_of_all_space (pyStrip_empty_all_space hs)] at h
  cases h

/-- C6: a fragment emits a question exactly when its extracted question
text is non-empty and at least four options were recovered, and every
emitted question keeps exactly the first four recovered options. -/
theorem claim_C6 (part : Str) :
    ((processFragment part).isSome ↔
      questionTextOf part ≠ [] ∧ 4 ≤ (optionsOf part).length) ∧
    (∀ q, processFragment part = some q →
      q.options = (optionsOf part).take 4 ∧ q.options.length = 4) := by
  unfold processFragment questionTextOf optionsOf
  rcases hqs : qSplit part with _ | raw
  · constructor
    · split
      · simp
      · simp
    · intro q hq
      split at hq
      · cases hq
      · cases hq
  · rw [if_neg (qSplit_some_strip_ne hqs)]
    dsimp only
    constructor
    · split
      · rename_i hcond
        simp only [Option.isSome_some, true_iff]
        refine ⟨by simpa using hcond.1, hcond.2⟩
      · rename_i hcond
        simp only [Option.isSome_none, Bool.false_eq_true, false_iff]
        intro ⟨h1, h2⟩
        exact hcond ⟨by simpa using h1, h2⟩
    · intro q hq
      split at hq
      · rename_i hcond
        cases hq
        refine ⟨rfl, ?_⟩
        rw [List.length_take]
        omega
      · cases hq

theorem buildOpts_eq_filter (l : List Str) :
    buildOpts l = (l.map pyStrip).filter (fun t => !t.isEmpty) := by
  suffices h : ∀ acc,
      l.foldl (fun acc g => let t := pyStrip g; if t.isEmpty then acc else acc ++ [t]) acc =
        acc ++ (l.map pyStrip).filter (fun t => !t.isEmpty) by
    simpa [buildOpts] using h []
  induction l with
  | nil => simp
  | cons x t ih =>
    intro acc
    rw [List.foldl_cons]
    dsimp only
    by_cases hx : (pyStrip x).isEmpty
    · rw [if_pos hx, ih]
      simp [hx]
    · rw [if_neg hx, ih]
      simp [hx]

theorem filter_length_lt_of_dropped {l : List Str} {g : Str}
    (hg : g ∈ l) (he : pyStrip g = []) :
    (((l.map pyStrip).filter (fun t => !t.isEmpty))).length < l.length := by
  induction l with
  | nil => cases hg
  | cons x t ih =>
    rcases List.mem_cons.mp hg with rfl | hmem
    · rw [List.map_cons, List.filter_cons]
      rw [he]
      simp only [List.isEmpty_nil, Bool.not_true, Bool.false_eq_true, if_false]
      have := List.length_filter_le (fun t => !t.isEmpty) (t.map pyStrip)
      simp only [List.length_map] at this
      simp only [List.length_cons]
      omega
    · rw [List.map_cons, List.filter_cons]
      split
      · simp only [List.length_cons]
        have := ih hmem
        omega
      · have := ih hmem
        simp only [List.length_cons]
        omega

/-- C10: an option whose captured group strips to the empty string is
dropped (the recovered list is the non-empty stripped groups, shifting
later options down), a dropped option shrinks the list, and a fragment
left with fewer than four options is skipped. -/
theorem claim_C10 (part : Str) :
    optionsOf part =
      (((optFind part).map pyStrip).filter (fun t => !t.isEmpty)).map unesc ∧
    (∀ g ∈ optFind part, pyStrip g = [] →
      (buildOpts (optFind part)).length < (optFind part).length) ∧
    ((optionsOf part).length < 4 → processFragment part = none) := by
  refine ⟨by rw [optionsOf, buildOpts_eq_filter], ?_, ?_⟩
  · intro g hg he
    rw [buildOpts_eq_filter]
    exact filter_length_lt_of_dropped hg he
  · intro hlen
    unfold processFragment
    split
    · rfl
    · rcases hqs : qSplit part with _ | raw
      · rfl
      · dsimp only
        rw [if_neg]
        rintro ⟨-, h4⟩
        rw [optionsOf] at hlen
        omega

/-- Witness for C10: in `emptyOptFragment` the `D.` group is captured
empty, dropped, and the fragment is skipped. -/
theorem claim_C10_witness :
    ([] : Str) ∈ optFind emptyOptFragment ∧
    (buildOpts (optFind emptyOptFragment)).length < (optFind emptyOptFragment).length ∧
    processFragment emptyOptFragment = none :=
  ⟨by decide,
   (claim_C10 emptyOptFragment).2.1 [] (by decide) (by decide),
   (claim_C10 emptyOptFragment).2.2 (by decide)⟩

/-- Witness for C6 at a concrete four-option fragment. -/
theorem claim_C6_witness :
    processFragment plainFragment =
      some ⟨("Which?").toList,
        [("north").toList, ("south").toList, ("east").toList, ("west").toList],
        [], none⟩ ∧
    ((⟨("Which?").toList,
        [("north").toList, ("south").toList, ("east").toList, ("west").toList],
        [], none⟩ : Question).options = (optionsOf plainFragment).take 4 ∧
      (⟨("Which?").toList,
        [("north").toList, ("south").toList, ("east").toList, ("west").toList],
        [], none⟩ : Question).options.length = 4) :=
  ⟨by decide, (claim_C6 plainFragment).2 _ (by decide)⟩

/-! ### Estimated reading time (claim C8) -/

theorem ceil_half_nat (n : ℕ) : Nat.ceil ((n : ℚ) / 2) = (n + 1) / 2 := by
  rcases Nat.even_or_odd n with ⟨m, hm⟩ | ⟨m, hm⟩
  · subst hm
    have h1 : ((m + m : ℕ) : ℚ) / 2 = (m : ℚ) := by push_cast; ring
    rw [h1, Nat.ceil_natCast]
    omega
  · subst hm
    have h1 : ((2 * m + 1 : ℕ) : ℚ) / 2 = (m : ℚ) + 1 / 2 := by push_cast; ring
    have h2 : (2 * m + 1 + 1) / 2 = m + 1 := by omega
    rw [h1, h2, Nat.ceil_eq_iff (by omega : m + 1 ≠ 0)]
    refine ⟨?_, ?_⟩
    · push_cast [Nat.add_sub_cancel]
      linarith
    · push_cast
      linarith

/-- C8: the estimated reading time of every scanned artifact equals
`max 5 ⌈question_count / 2⌉` minutes, and the generated card shows
exactly that number in its time span. -/
theorem claim_C8 (filename : Str) (content : Option Str) :
    (extract_quiz_info filename content).estimated_time =
      max 5 (Nat.ceil (((extract_quiz_info filename content).question_count : ℚ) / 2)) ∧
    (("⏱️ ~").toList ++ natStr (extract_quiz_info filename content).estimated_time ++
        (" minutes").toList) <:+:
      create_quiz_card_html (extract_quiz_info filename content) := by
  have hseg5 : cardSeg5 =
      ("\n            </p>\n            <div class=\x22quiz-meta\x22>\n                <span>").toList ++
        ("⏱️ ~").toList := by decide
  have hseg6 : cardSeg6 =
      (" minutes").toList ++ ("</span>\n                <span>❓ ").toList := by decide
  constructor
  · rcases content with _ | c
    · show (5 : Nat) = max 5 (Nat.ceil ((10 : ℚ) / 2))
      rw [show ((10 : ℚ)) = ((10 : ℕ) : ℚ) by norm_num, ceil_half_nat]
      decide
    · simp only [extract_quiz_info]
      rw [ceil_half_nat]
  · set i := extract_quiz_info filename content with hi
    refine ⟨cardSeg1 ++ i.filename ++ cardSeg2 ++ i.icon ++ cardSeg3 ++ i.title ++
        cardSeg4 ++ i.description ++
        ("\n            </p>\n            <div class=\x22quiz-meta\x22>\n                <span>").toList,
      ("</span>\n                <span>❓ ").toList ++ natStr i.question_count ++ cardSeg7, ?_⟩
    rw [create_quiz_card_html, hseg5, hseg6]
    simp [List.append_assoc]

/-! ### Index update runs (claims C4, C5, C9) -/

theorem update_index_html_fail_missing (cards : Str) {fs : FS}
    (h : lookupFile fs (("index.html").toList) = none) :
    update_index_html cards fs = (fs, false) := by
  unfold update_index_html
  split
  · rfl
  · rename_i content h1
    rw [h] at h1
    cases h1

theorem update_index_html_fail_marker (cards : Str) {fs : FS} {c : Str}
    (hc : lookupFile fs (("index.html").toList) = some c)
    (hm : findSubIdx gridMarker c = none) :
    update_index_html cards fs = (fs, false) := by
  unfold update_index_html
  split
  · rename_i h1
    rw [hc] at h1
  · rename_i content h1
    rw [hc] at h1
    injection h1 with h1
    subst h1
    split
    · rfl
    · rename_i gs h2
      rw [hm] at h2
      cases h2

theorem update_index_html_success (cards : Str) {fs : FS} {content : Str} {i r j : Nat}
    (hlook : lookupFile fs (("index.html").toList) = some content)
    (hfind : findSubIdx gridMarker content = some i)
    (hr : findSubIdx (("</div>").toList) (content.drop i) = some r)
    (hscan : divScan (content.drop (i + 23)) (i + 23) 1 = some j) :
    update_index_html cards fs =
      (writeFile fs (("index.html").toList)
        (content.take i ++
          (gridMarker ++ ("\n").toList ++ cards ++ ("\n    </div>").toList) ++
          content.drop (j + 6)), true) := by
  unfold update_index_html
  split
  · rename_i h1
    rw [hlook] at h1
    cases h1
  · rename_i content' h1
    rw [hlook] at h1
    injection h1 with h1
    subst h1
    split
    · rename_i h2
      rw [hfind] at h2
      cases h2
    · rename_i gs h2
      rw [hfind] at h2
      injection h2 with h2
      subst h2
      split
      · rename_i h3
        rw [hr] at h3
        cases h3
      · rename_i ge0 h3
        rw [hr] at h3
        injection h3 with h3
        subst h3
        rw [hscan]
        rfl

/-- C4 (amended): with zero eligible quiz artifacts the run returns
early — the directory (including the listing artifact) is untouched, no
error is reported, and the exit status is 0. -/
theorem claim_C4 (fs : FS) (h : find_quiz_files fs = []) :
    update_index_main fs = ⟨fs, 0, false⟩ := by
  simp [update_index_main, h]

/-- C4 counterexample: with a listing artifact whose card region holds an
old card and no quiz artifacts, the run leaves the artifact exactly as it
was — it is not rewritten to the empty-card-list form. -/
theorem claim_C4_counterexample :
    update_index_main fsC4 = ⟨fsC4, 0, false⟩ ∧
    lookupFile (update_index_main fsC4).fs (("index.html").toList) = some idxContentC4 ∧
    idxContentC4 ≠ idxContentC4Empty := ⟨by decide, by decide, by decide⟩

/-- Witness for C4. -/
theorem claim_C4_witness :
    find_quiz_files fsC4 = [] ∧ update_index_main fsC4 = ⟨fsC4, 0, false⟩ :=
  ⟨by decide, claim_C4 fsC4 (by decide)⟩

/-- C5 (amended): when the listing artifact is missing or its card-list
opening marker is absent, the listing artifact is not modified and (when
any quiz artifact exists) a failure is reported — but the process exit
status is 0, not non-zero. -/
theorem claim_C5 (fs : FS)
    (h : lookupFile fs (("index.html").toList) = none ∨
      ∃ c, lookupFile fs (("index.html").toList) = some c ∧
        findSubIdx gridMarker c = none) :
    (update_index_main fs).fs = fs ∧ (update_index_main fs).exitCode = 0 ∧
    (find_quiz_files fs ≠ [] → (update_index_main fs).errorReported = true) := by
  unfold update_index_main
  by_cases hq : (find_quiz_files fs).isEmpty
  · rw [if_pos hq]
    refine ⟨rfl, rfl, fun hne => ?_⟩
    rw [List.isEmpty_iff] at hq
    exact absurd hq hne
  · rw [if_neg hq]
    have hfail : ∀ cards, update_index_html cards fs = (fs, false) := by
      intro cards
      rcases h with h | ⟨c, hc, hm⟩
      · exact update_index_html_fail_missing cards h
      · exact update_index_html_fail_marker cards hc hm
    dsimp only
    rw [hfail]
    exact ⟨rfl, rfl, fun _ => rfl⟩

/-- C5 counterexample: with one quiz artifact and no listing artifact the
run reports the failure but exits with status 0. -/
theorem claim_C5_counterexample :
    update_index_main fsC5 = ⟨fsC5, 0, true⟩ := by decide

/-- Witness for C5. -/
theorem claim_C5_witness :
    lookupFile fsC5 (("index.html").toList) = none ∧
    (update_index_main fsC5).fs = fsC5 ∧ (update_index_main fsC5).exitCode = 0 ∧
    (find_quiz_files fsC5 ≠ [] → (update_index_main fsC5).errorReported = true) :=
  ⟨by decide, claim_C5 fsC5 (Or.inl (by decide))⟩

theorem lookup_aux_replace (l : List (Str × Str)) (n c : Str)
    (hany : l.any (fun p => p.1 == n) = true) :
    ((l.map (fun p => if p.1 == n then (p.1, c) else p)).find?
      (fun p => p.1 == n)).map (·.2) = some c := by
  induction l with
  | nil => simp at hany
  | cons p t ih =>
    rw [List.map_cons]
    by_cases hp : (p.1 == n) = true
    · rw [if_pos hp, List.find?_cons_of_pos _ (by simpa using hp)]
      rfl
    · rw [if_neg hp, List.find?_cons_of_neg _ (by simpa using hp)]
      apply ih
      rw [List.any_cons] at hany
      simp only [hp, Bool.false_or] at hany
      exact hany

theorem lookup_aux_append (l : List (Str × Str)) (n c : Str)
    (hany : l.any (fun p => p.1 == n) = false) :
    (((l ++ [(n, c)]).find? (fun p => p.1 == n))).map (·.2) = some c := by
  induction l with
  | nil => simp [List.find?]
  | cons p t ih =>
    rw [List.any_cons, Bool.or_eq_false_iff] at hany
    rw [List.cons_append, List.find?_cons_of_neg _ (by simp [hany.1])]
    exact ih hany.2

theorem lookupFile_writeFile_self (fs : FS) (n c : Str) :
    lookupFile (writeFile fs n c) n = some c := by
  obtain ⟨l⟩ := fs
  unfold writeFile lookupFile
  by_cases hany : l.any (fun p => p.1 == n) = true
  · rw [if_pos hany]
    exact lookup_aux_replace l n c hany
  · rw [if_neg hany]
    exact lookup_aux_append l n c (Bool.eq_false_iff.mpr hany)

theorem divScan_finds {u : Str} {pos cnt j : Nat}
    (h : divScan u pos cnt = some j) :
    ∃ k, j = pos + k ∧ isPre (("</div>").toList) (u.drop k) = true := by
  induction u generalizing pos cnt with
  | nil => cases h
  | cons c rest ih =>
    unfold divScan at h
    split at h
    · obtain ⟨k, hk, hp⟩ := ih h
      exact ⟨k + 1, by omega, hp⟩
    · split at h
      · rename_i hother hclose
        split at h
        · refine ⟨0, ?_, ?_⟩
          · have hj := Option.some.inj h
            omega
          · rw [List.drop_zero]
            exact hclose
        · obtain ⟨k, hk, hp⟩ := ih h
          exact ⟨k + 1, by omega, hp⟩
      · obtain ⟨k, hk, hp⟩ := ih h
        exact ⟨k + 1, by omega, hp⟩

theorem findSubIdx_isSome_of_isPre {pat s : Str} {m : Nat}
    (h : isPre pat (s.drop m) = true) (hpat : pat ≠ []) :
    ∃ r, findSubIdx pat s = some r := by
  induction s generalizing m with
  | nil =>
    rw [List.drop_nil] at h
    match pat, hpat with
    | p :: ps, _ => cases h
  | cons c rest ih =>
    by_cases hp : isPre pat (c :: rest) = true
    · exact ⟨0, by unfold findSubIdx; rw [if_pos hp]⟩
    · match m with
      | 0 =>
        rw [List.drop_zero] at h
        exact absurd h hp
      | m' + 1 =>
        rw [List.drop_succ_cons] at h
        obtain ⟨r, hr⟩ := ih (m := m') h
        refine ⟨r + 1, ?_⟩
        unfold findSubIdx
        rw [if_neg hp, hr]
        rfl

/-- C9: when the listing artifact exists, the opening marker is found at
`i`, and the nested-container count scan finds the matching close token
at `j`, the update succeeds and the new artifact is exactly the old text
up to the marker, the freshly generated region, and the old text after
the matching close token — everything outside the region is unchanged. -/
theorem claim_C9 (fs : FS) (cards content : Str) (i j : Nat)
    (hlook : lookupFile fs (("index.html").toList) = some content)
    (hfind : findSubIdx gridMarker content = some i)
    (hscan : divScan (content.drop (i + 23)) (i + 23) 1 = some j) :
    (update_index_html cards fs).2 = true ∧
    lookupFile (update_index_html cards fs).1 (("index.html").toList) =
      some (content.take i ++
        (gridMarker ++ ("\n").toList ++ cards ++ ("\n    </div>").toList) ++
        content.drop (j + 6)) := by
  obtain ⟨k, hk, hkpre⟩ := divScan_finds hscan
  rw [List.drop_drop] at hkpre
  have hkpre' : isPre (("</div>").toList) ((content.drop i).drop (23 + k)) = true := by
    rw [List.drop_drop]
    rw [show i + (23 + k) = i + 23 + k by omega]
    exact hkpre
  obtain ⟨r, hr⟩ := findSubIdx_isSome_of_isPre hkpre' (by decide)
  rw [update_index_html_success cards hlook hfind hr hscan]
  exact ⟨rfl, lookupFile_writeFile_self fs _ _⟩

/-- Witness for C9 on a region containing a nested container. -/
theorem claim_C9_witness :
    lookupFile fsC9 (("index.html").toList) = some idxContentC9 ∧
    findSubIdx gridMarker idxContentC9 = some 4 ∧
    divScan (idxContentC9.drop 27) 27 1 = some 51 ∧
    ((update_index_html (("CARDS").toList) fsC9).2 = true ∧
      lookupFile (update_index_html (("CARDS").toList) fsC9).1 (("index.html").toList) =
        some (idxContentC9.take 4 ++
          (gridMarker ++ ("\n").toList ++ ("CARDS").toList ++ ("\n    </div>").toList) ++
          idxContentC9.drop 57)) :=
  ⟨by decide, by decide, by decide,
   claim_C9 fsC9 (("CARDS").toList) idxContentC9 4 51 (by decide) (by decide) (by decide)⟩

/-! ### Round-trip of the embedded quizData (claim C3) -/

theorem isPre_append_self (a r : Str) : isPre a (a ++ r) = true := by
  induction a with
  | nil => rfl
  | cons c t ih => simp [isPre, ih]

theorem expectTok_append (t r : Str) : expectTok t (t ++ r) = some r := by
  rw [expectTok, if_pos (isPre_append_self t r), List.drop_left]

theorem char_toNat_ofNat {n : Nat} (h : n.isValidChar) : (Char.ofNat n).toNat = n := by
  rw [Char.ofNat, dif_pos h]
  rfl

theorem char_valid_range (c : Char) :
    c.toNat < 55296 ∨ (57343 < c.toNat ∧ c.toNat < 1114112) := by
  rcases c.valid with h | ⟨h1, h2⟩
  · exact Or.inl h
  · exact Or.inr ⟨h1, h2⟩

theorem hexVal_hexDig : ∀ m, m < 16 → hexVal (hexDig m) = some m := by decide

theorem parseHex4_cons (a b c d : Char) (rest : Str) :
    parseHex4 (a :: b :: c :: d :: rest) =
      match hexVal a, hexVal b, hexVal c, hexVal d with
      | some x, some y, some z, some w => some (((x * 16 + y) * 16 + z) * 16 + w, rest)
      | _, _, _, _ => none := rfl

theorem parseHex4_hex4 {n : Nat} (h : n < 65536) (r : Str) :
    parseHex4 (hex4 n ++ r) = some (n, r) := by
  show parseHex4 (hexDig (n / 4096 % 16) :: hexDig (n / 256 % 16) ::
    hexDig (n / 16 % 16) :: hexDig (n % 16) :: r) = some (n, r)
  rw [parseHex4_cons, hexVal_hexDig _ (by omega), hexVal_hexDig _ (by omega),
    hexVal_hexDig _ (by omega), hexVal_hexDig _ (by omega)]
  show some ((((n / 4096 % 16) * 16 + n / 256 % 16) * 16 + n / 16 % 16) * 16 + n % 16, r) =
    some (n, r)
  rw [show (((n / 4096 % 16) * 16 + n / 256 % 16) * 16 + n / 16 % 16) * 16 + n % 16 = n by
    omega]

theorem parseJStrF_close (f : Nat) (rest : Str) :
    parseJStrF (f + 1) ('"' :: rest) = some ([], rest) := rfl

theorem parseJStrF_esc (f : Nat) (rest : Str) :
    parseJStrF (f + 1) (bsl :: rest) =
      (parseEsc rest).bind fun p =>
        (parseJStrF f p.2).map fun q => (p.1 :: q.1, q.2) := rfl

theorem parseJStrF_lit (f : Nat) {c : Char} (h1 : ¬c = '"') (h2 : ¬c = bsl)
    (h3 : ¬c.toNat < 32) (rest : Str) :
    parseJStrF (f + 1) (c :: rest) =
      (parseJStrF f rest).map fun q => (c :: q.1, q.2) := by
  show (if c = '"' then some ([], rest)
    else if c = bsl then
      (parseEsc rest).bind fun p => (parseJStrF f p.2).map fun q => (p.1 :: q.1, q.2)
    else if c.toNat < 32 then none
    else (parseJStrF f rest).map fun q => (c :: q.1, q.2)) =
    (parseJStrF f rest).map fun q => (c :: q.1, q.2)
  rw [if_neg h1, if_neg h2, if_neg h3]

theorem parseJStrF_esc_char (f : Nat) (ec ch : Char)
    (h : ∀ t : Str, parseEsc (ec :: t) = some (ch, t)) (tail : Str) :
    parseJStrF (f + 1) (bsl :: ec :: tail) =
      (parseJStrF f tail).map fun q => (ch :: q.1, q.2) := by
  rw [parseJStrF_esc, h tail]
  rfl

theorem parseEsc_u (t : Str) : parseEsc ('u' :: t) =
    (parseHex4 t).bind fun p =>
      if 55296 ≤ p.1 ∧ p.1 < 56320 then
        match p.2 with
        | e1 :: e2 :: rest3 =>
          if e1 = bsl ∧ e2 = 'u' then
            (parseHex4 rest3).bind fun q =>
              if 56320 ≤ q.1 ∧ q.1 < 57344 then
                some (Char.ofNat (65536 + (p.1 - 55296) * 1024 + (q.1 - 56320)), q.2)
              else none
          else none
        | _ => none
      else if 56320 ≤ p.1 ∧ p.1 < 57344 then none
      else some (Char.ofNat p.1, p.2) := rfl

theorem parseEsc_u_bmp {c : Char} (hbmp : c.toNat < 65536) (r : Str) :
    parseEsc ('u' :: (hex4 c.toNat ++ r)) = some (c, r) := by
  rw [parseEsc_u, parseHex4_hex4 hbmp, Option.some_bind]
  rcases char_valid_range c with hv | hv
  · rw [if_neg (by omega), if_neg (by omega), Char.ofNat_toNat]
  · rw [if_neg (by omega), if_neg (by omega), Char.ofNat_toNat]

theorem parseEsc_u_astral {c : Char} (hast : ¬c.toNat < 65536) (r : Str) :
    parseEsc ('u' :: (hex4 (55296 + (c.toNat - 65536) / 1024) ++
      (bsl :: 'u' :: (hex4 (56320 + (c.toNat - 65536) % 1024) ++ r)))) = some (c, r) := by
  have hval : c.toNat < 1114112 := by
    rcases char_valid_range c with hv | hv
    · omega
    · exact hv.2
  have hv : c.toNat - 65536 < 1048576 := by omega
  have hhiv : (c.toNat - 65536) / 1024 < 1024 := by omega
  have hlov : (c.toNat - 65536) % 1024 < 1024 := by omega
  rw [parseEsc_u, parseHex4_hex4 (by omega), Option.some_bind]
  rw [if_pos (by constructor <;> omega)]
  show (if bsl = bsl ∧ 'u' = 'u' then
      (parseHex4 (hex4 (56320 + (c.toNat - 65536) % 1024) ++ r)).bind fun q =>
        if 56320 ≤ q.1 ∧ q.1 < 57344 then
          some (Char.ofNat (65536 + (55296 + (c.toNat - 65536) / 1024 - 55296) * 1024 +
            (q.1 - 56320)), q.2)
        else none
    else none) = some (c, r)
  rw [if_pos ⟨rfl, rfl⟩, parseHex4_hex4 (by omega), Option.some_bind,
    if_pos (by constructor <;> omega)]
  rw [show 65536 + (55296 + (c.toNat - 65536) / 1024 - 55296) * 1024 +
      (56320 + (c.toNat - 65536) % 1024 - 56320) = c.toNat by omega]
  rw [Char.ofNat_toNat]

theorem escJson_cons (c : Char) (s : Str) :
    escJson (c :: s) = escJsonChar c ++ escJson s := rfl

theorem parseJStrF_escJson (s : Str) : ∀ (fuel : Nat) (rest : Str),
    (escJson s).length + 1 ≤ fuel →
    parseJStrF fuel (escJson s ++ '"' :: rest) = some (s, rest) := by
  induction s with
  | nil =>
    intro fuel rest hf
    match fuel, hf with
    | f + 1, _ => exact parseJStrF_close f rest
  | cons c s' ih =>
    intro fuel rest hf
    rw [escJson_cons] at hf ⊢
    obtain ⟨f, rfl⟩ : ∃ f, fuel = f + 1 := ⟨fuel - 1, by omega⟩
    by_cases hq : c = '"'
    · subst hq
      rw [show escJsonChar '"' = [bsl, '"'] from rfl] at hf ⊢
      rw [show ([bsl, '"'] ++ escJson s') ++ '"' :: rest =
        bsl :: '"' :: (escJson s' ++ '"' :: rest) by simp]
      rw [parseJStrF_esc_char f '"' '"' (fun t => rfl),
        ih f rest (by simp at hf ⊢; omega)]
      rfl
    · by_cases hbs : c = bsl
      · subst hbs
        rw [show escJsonChar bsl = [bsl, bsl] from rfl] at hf ⊢
        rw [show ([bsl, bsl] ++ escJson s') ++ '"' :: rest =
          bsl :: bsl :: (escJson s' ++ '"' :: rest) by simp]
        rw [parseJStrF_esc_char f bsl bsl (fun t => rfl),
          ih f rest (by simp at hf ⊢; omega)]
        rfl
      · by_cases hb : c = '\x08'
        · subst hb
          rw [show escJsonChar '\x08' = [bsl, 'b'] from rfl] at hf ⊢
          rw [show ([bsl, 'b'] ++ escJson s') ++ '"' :: rest =
            bsl :: 'b' :: (escJson s' ++ '"' :: rest) by simp]
          rw [parseJStrF_esc_char f 'b' '\x08' (fun t => rfl),
            ih f rest (by simp at hf ⊢; omega)]
          rfl
        · by_cases ht : c = '\t'
          · subst ht
            rw [show escJsonChar '\t' = [bsl, 't'] from rfl] at hf ⊢
            rw [show ([bsl, 't'] ++ escJson s') ++ '"' :: rest =
              bsl :: 't' :: (escJson s' ++ '"' :: rest) by simp]
            rw [parseJStrF_esc_char f 't' '\t' (fun t => rfl),
              ih f rest (by simp at hf ⊢; omega)]
            rfl
          · by_cases hn : c = '\n'
            · subst hn
              rw [show escJsonChar '\n' = [bsl, 'n'] from rfl] at hf ⊢
              rw [show ([bsl, 'n'] ++ escJson s') ++ '"' :: rest =
                bsl :: 'n' :: (escJson s' ++ '"' :: rest) by simp]
              rw [parseJStrF_esc_char f 'n' '\n' (fun t => rfl),
                ih f rest (by simp at hf ⊢; omega)]
              rfl
            · by_cases hfc : c = '\x0c'
              · subst hfc
                rw [show escJsonChar '\x0c' = [bsl, 'f'] from rfl] at hf ⊢
                rw [show ([bsl, 'f'] ++ escJson s') ++ '"' :: rest =
                  bsl :: 'f' :: (escJson s' ++ '"' :: rest) by simp]
                rw [parseJStrF_esc_char f 'f' '\x0c' (fun t => rfl),
                  ih f rest (by simp at hf ⊢; omega)]
                rfl
              · by_cases hcr : c = '\r'
                · subst hcr
                  rw [show escJsonChar '\r' = [bsl, 'r'] from rfl] at hf ⊢
                  rw [show ([bsl, 'r'] ++ escJson s') ++ '"' :: rest =
                    bsl :: 'r' :: (escJson s' ++ '"' :: rest) by simp]
                  rw [parseJStrF_esc_char f 'r' '\r' (fun t => rfl),
                    ih f rest (by simp at hf ⊢; omega)]
                  rfl
                · by_cases hpr : 32 ≤ c.toNat ∧ c.toNat ≤ 126
                  · have hch : escJsonChar c = [c] := by
                      unfold escJsonChar
                      rw [if_neg hq, if_neg hbs, if_neg hb, if_neg ht, if_neg hn,
                        if_neg hfc, if_neg hcr, if_pos hpr]
                    rw [hch] at hf ⊢
                    rw [show ([c] ++ escJson s') ++ '"' :: rest =
                      c :: (escJson s' ++ '"' :: rest) by simp]
                    rw [parseJStrF_lit f hq hbs (by omega),
                      ih f rest (by simp at hf ⊢; omega)]
                    rfl
                  · by_cases hbmp : c.toNat < 65536
                    · have hch : escJsonChar c = bsl :: 'u' :: hex4 c.toNat := by
                        unfold escJsonChar
                        rw [if_neg hq, if_neg hbs, if_neg hb, if_neg ht, if_neg hn,
                          if_neg hfc, if_neg hcr, if_neg hpr, if_pos hbmp]
                      rw [hch] at hf ⊢
                      rw [show ((bsl :: 'u' :: hex4 c.toNat) ++ escJson s') ++ '"' :: rest =
                        bsl :: 'u' :: (hex4 c.toNat ++ (escJson s' ++ '"' :: rest)) by simp]
                      rw [parseJStrF_esc, parseEsc_u_bmp hbmp, Option.some_bind,
                        ih f rest (by simp at hf ⊢; omega)]
                      rfl
                    · have hch : escJsonChar c =
                          (bsl :: 'u' :: hex4 (55296 + (c.toNat - 65536) / 1024)) ++
                          (bsl :: 'u' :: hex4 (56320 + (c.toNat - 65536) % 1024)) := by
                        unfold escJsonChar
                        rw [if_neg hq, if_neg hbs, if_neg hb, if_neg ht, if_neg hn,
                          if_neg hfc, if_neg hcr, if_neg hpr, if_neg hbmp]
                      rw [hch] at hf ⊢
                      rw [show (((bsl :: 'u' :: hex4 (55296 + (c.toNat - 65536) / 1024)) ++
                          (bsl :: 'u' :: hex4 (56320 + (c.toNat - 65536) % 1024))) ++
                          escJson s') ++ '"' :: rest =
                        bsl :: 'u' :: (hex4 (55296 + (c.toNat - 65536) / 1024) ++
                          (bsl :: 'u' :: (hex4 (56320 + (c.toNat - 65536) % 1024) ++
                            (escJson s' ++ '"' :: rest)))) by simp]
                      rw [parseJStrF_esc, parseEsc_u_astral hbmp, Option.some_bind,
                        ih f rest (by simp at hf ⊢; omega)]
                      rfl

theorem parseQStr_jstr (s rest : Str) : parseQStr (jstr s ++ rest) = some (s, rest) := by
  rw [show jstr s ++ rest = '"' :: (escJson s ++ '"' :: rest) by simp [jstr]]
  show parseJStrF (escJson s ++ '"' :: rest).length (escJson s ++ '"' :: rest) = some (s, rest)
  exact parseJStrF_escJson s _ rest (by simp)

theorem natStrF_eq (fuel : Nat) : ∀ (n : Nat) (acc : Str), n < fuel →
    natStrF fuel n acc = natDigitsRec n ++ acc := by
  induction fuel with
  | zero => intro n acc h; omega
  | succ f ih =>
    intro n acc h
    by_cases h10 : n < 10
    · rw [show natStrF (f + 1) n acc = Char.ofNat (48 + n) :: acc from by
        rw [show natStrF (f + 1) n acc = if n < 10 then Char.ofNat (48 + n) :: acc
          else natStrF f (n / 10) (Char.ofNat (48 + n % 10) :: acc) from rfl, if_pos h10]]
      rw [natDigitsRec, if_pos h10]
      rfl
    · rw [show natStrF (f + 1) n acc = natStrF f (n / 10) (Char.ofNat (48 + n % 10) :: acc)
        from by
          rw [show natStrF (f + 1) n acc = if n < 10 then Char.ofNat (48 + n) :: acc
            else natStrF f (n / 10) (Char.ofNat (48 + n % 10) :: acc) from rfl, if_neg h10]]
      rw [ih (n / 10) _ (by omega)]
      conv_rhs => rw [natDigitsRec]
      rw [if_neg h10]
      simp [List.append_assoc]

theorem natStr_eq (n : Nat) : natStr n = natDigitsRec n := by
  rw [natStr, natStrF_eq (n + 1) n [] (by omega), List.append_nil]

theorem natDigitsRec_ne_nil (n : Nat) : natDigitsRec n ≠ [] := by
  rw [natDigitsRec]
  split
  · simp
  · simp

theorem natDigitsRec_all_digits (n : Nat) : ∀ c ∈ natDigitsRec n, isDigitCh c = true := by
  induction n using Nat.strong_induction_on with
  | _ n ih =>
    intro c hc
    rw [natDigitsRec] at hc
    split at hc
    · rename_i h10
      simp only [List.mem_singleton] at hc
      subst hc
      have ht : (Char.ofNat (48 + n)).toNat = 48 + n :=
        char_toNat_ofNat (Or.inl (by omega))
      simp only [isDigitCh, ht]
      simp only [Bool.and_eq_true, decide_eq_true_eq]
      omega
    · rename_i h10
      rw [List.mem_append] at hc
      rcases hc with hc | hc
      · exact ih (n / 10) (by omega) c hc
      · simp only [List.mem_singleton] at hc
        subst hc
        have ht : (Char.ofNat (48 + n % 10)).toNat = 48 + n % 10 :=
          char_toNat_ofNat (Or.inl (by omega))
        simp only [isDigitCh, ht]
        simp only [Bool.and_eq_true, decide_eq_true_eq]
        omega

theorem foldl_natDigitsRec (n : Nat) : ∀ a : Nat,
    (natDigitsRec n).foldl (fun x c => x * 10 + (c.toNat - 48)) a =
      a * 10 ^ (natDigitsRec n).length + n := by
  induction n using Nat.strong_induction_on with
  | _ n ih =>
    intro a
    rw [natDigitsRec]
    split
    · rename_i h10
      rw [List.foldl_cons, List.foldl_nil]
      have ht : (Char.ofNat (48 + n)).toNat = 48 + n :=
        char_toNat_ofNat (Or.inl (by omega))
      rw [ht, List.length_singleton]
      simp [pow_one]
    · rename_i h10
      rw [List.foldl_append, ih (n / 10) (by omega) a, List.foldl_cons, List.foldl_nil]
      have ht : (Char.ofNat (48 + n % 10)).toNat = 48 + n % 10 :=
        char_toNat_ofNat (Or.inl (by omega))
      rw [ht, List.length_append, List.length_singleton]
      rw [show 48 + n % 10 - 48 = n % 10 by omega]
      calc (a * 10 ^ (natDigitsRec (n / 10)).length + n / 10) * 10 + n % 10
          = a * (10 ^ (natDigitsRec (n / 10)).length * 10) + (n / 10 * 10 + n % 10) := by
            ring
        _ = a * 10 ^ ((natDigitsRec (n / 10)).length + 1) + n := by
            have hnm : n / 10 * 10 + n % 10 = n := by omega
            rw [pow_succ, hnm]

theorem takeWhile_append_stop {p : Char → Bool} : ∀ (a b : Str),
    (∀ c ∈ a, p c = true) → (∀ c, b.head? = some c → p c = false) →
    (a ++ b).takeWhile p = a ∧ (a ++ b).dropWhile p = b := by
  intro a
  induction a with
  | nil =>
    intro b _ hb
    match b with
    | [] => exact ⟨rfl, rfl⟩
    | c :: b' =>
      have := hb c rfl
      constructor
      · rw [List.nil_append, List.takeWhile_cons, this]
        simp
      · rw [List.nil_append, List.dropWhile_cons, this]
        simp
  | cons d a' ih =>
    intro b ha hb
    have hd : p d = true := ha d (by simp)
    obtain ⟨h1, h2⟩ := ih b (fun c hc => ha c (by simp [hc])) hb
    constructor
    · rw [List.cons_append, List.takeWhile_cons, hd]
      simp only [if_true]
      rw [h1]
    · rw [List.cons_append, List.dropWhile_cons, hd]
      simp only [if_true]
      exact h2

theorem parseNatDigits_natStr (n : Nat) {rest : Str}
    (hd : ∀ c, rest.head? = some c → isDigitCh c = false) :
    parseNatDigits (natStr n ++ rest) = some (n, rest) := by
  rw [natStr_eq]
  obtain ⟨h1, h2⟩ := takeWhile_append_stop (natDigitsRec n) rest
    (natDigitsRec_all_digits n) hd
  rw [parseNatDigits]
  simp only [h1, h2]
  rw [if_neg (by simpa using natDigitsRec_ne_nil n)]
  rw [foldl_natDigitsRec n 0]
  simp

theorem joinSep_single (s x : Str) : joinSep s [x] = x := rfl

theorem joinSep_pair (s x y : Str) (t : List Str) :
    joinSep s (x :: y :: t) = x ++ s ++ joinSep s (y :: t) := rfl

theorem joinSep_absorb (pre sep : Str) : ∀ (l : List Str), l ≠ [] →
    joinSep sep (l.map (fun o => pre ++ o)) = pre ++ joinSep (sep ++ pre) l := by
  intro l
  induction l with
  | nil => intro h; exact absurd rfl h
  | cons x t ih =>
    intro _
    rcases t with _ | ⟨y, t'⟩
    · simp [joinSep]
    · rw [List.map_cons, List.map_cons, joinSep_pair]
      rw [List.map_cons] at ih
      rw [ih (by simp), joinSep_pair]
      simp [List.append_assoc]

theorem joinSep_length_ge {α : Type} (sep : Str) (jf : α → Str)
    (hjf : ∀ o, 1 ≤ (jf o).length) :
    ∀ (l : List α), l.length ≤ (joinSep sep (l.map jf)).length := by
  intro l
  induction l with
  | nil => simp [joinSep]
  | cons x t ih =>
    rcases t with _ | ⟨y, t'⟩
    · simpa [joinSep] using hjf x
    · rw [List.map_cons, List.map_cons,
        show joinSep sep (jf x :: jf y :: t'.map jf) =
          jf x ++ sep ++ joinSep sep (jf y :: t'.map jf) from rfl]
      rw [List.map_cons] at ih
      simp only [List.length_cons] at ih
      simp only [List.length_append, List.length_cons]
      have h1 := hjf x
      omega

theorem joinSep_map_pair {α : Type} (s : Str) (jf : α → Str) (x y : α) (t : List α) :
    joinSep s ((x :: y :: t).map jf) = jf x ++ s ++ joinSep s ((y :: t).map jf) := rfl

theorem parseOptsLoop_succ (f : Nat) (s : Str) :
    parseOptsLoop (f + 1) s =
      (parseQStr s).bind fun p =>
        match p.2 with
        | ',' :: rest2 =>
          (expectTok (("\n").toList ++ ind24) rest2).bind fun rest3 =>
            (parseOptsLoop f rest3).map fun q => (p.1 :: q.1, q.2)
        | '\n' :: rest2 =>
          (expectTok (ind16 ++ ("]").toList) rest2).map fun r => ([p.1], r)
        | _ => none := rfl

theorem parseOptsLoop_spec : ∀ (os : List Str) (fuel : Nat) (rest : Str), os ≠ [] →
    os.length ≤ fuel →
    parseOptsLoop fuel
      (joinSep ((",\n").toList ++ ind24) (os.map jstr) ++
        ('\n' :: ((ind16 ++ ("]").toList) ++ rest))) = some (os, rest) := by
  intro os
  induction os with
  | nil => intro _ _ h; exact absurd rfl h
  | cons o os' ih =>
    intro fuel rest _ hf
    obtain ⟨f, rfl⟩ : ∃ f, fuel = f + 1 := ⟨fuel - 1, by simp at hf; omega⟩
    rcases os' with _ | ⟨o2, os''⟩
    · rw [List.map_cons, List.map_nil, joinSep_single]
      rw [parseOptsLoop_succ, parseQStr_jstr, Option.some_bind]
      show (expectTok (ind16 ++ ("]").toList) ((ind16 ++ ("]").toList) ++ rest)).map
        (fun r => ([o], r)) = some ([o], rest)
      rw [expectTok_append, Option.map_some']
    · rw [joinSep_map_pair]
      have hshape : (jstr o ++ ((",\n").toList ++ ind24) ++
          joinSep ((",\n").toList ++ ind24) ((o2 :: os'').map jstr)) ++
          ('\n' :: ((ind16 ++ ("]").toList) ++ rest)) =
        jstr o ++ (',' :: ((("\n").toList ++ ind24) ++
          (joinSep ((",\n").toList ++ ind24) ((o2 :: os'').map jstr) ++
            ('\n' :: ((ind16 ++ ("]").toList) ++ rest))))) := by
        rw [show ((",\n").toList : Str) = [',', '\n'] from rfl,
          show (("\n").toList : Str) = ['\n'] from rfl]
        simp [List.append_assoc]
      rw [hshape, parseOptsLoop_succ, parseQStr_jstr, Option.some_bind]
      show ((expectTok (("\n").toList ++ ind24) ((("\n").toList ++ ind24) ++
          (joinSep ((",\n").toList ++ ind24) ((o2 :: os'').map jstr) ++
            ('\n' :: ((ind16 ++ ("]").toList) ++ rest))))).bind fun rest3 =>
        (parseOptsLoop f rest3).map fun q => (o :: q.1, q.2)) = some (o :: o2 :: os'', rest)
      rw [expectTok_append, Option.some_bind,
        ih f rest (by simp) (by simp at hf ⊢; omega), Option.map_some']

theorem parseOptsArr_dumpOpts (os : List Str) (rest : Str) :
    parseOptsArr (dumpOpts os ++ rest) = some (os, rest) := by
  rcases os with _ | ⟨o, os'⟩
  · rfl
  · rw [show dumpOpts (o :: os') = ("[\n").toList ++
        joinSep ((",\n").toList) ((o :: os').map (fun s => ind24 ++ jstr s)) ++
        ("\n").toList ++ ind16 ++ ("]").toList from rfl]
    rw [show (o :: os').map (fun s => ind24 ++ jstr s) =
        ((o :: os').map jstr).map (fun s => ind24 ++ s) by rw [List.map_map]; rfl]
    rw [joinSep_absorb _ _ _ (by simp)]
    have hshape : ((("[\n").toList ++ (ind24 ++
          joinSep ((",\n").toList ++ ind24) ((o :: os').map jstr)) ++
          ("\n").toList ++ ind16 ++ ("]").toList) ++ rest) =
        '[' :: ('\n' :: (ind24 ++ (joinSep ((",\n").toList ++ ind24) ((o :: os').map jstr) ++
          ('\n' :: ((ind16 ++ ("]").toList) ++ rest))))) := by
      rw [show (("[\n").toList : Str) = ['[', '\n'] from rfl,
        show (("\n").toList : Str) = ['\n'] from rfl]
      simp [List.append_assoc]
    rw [hshape]
    show ((expectTok (("\n").toList ++ ind24) ('\n' :: (ind24 ++
        (joinSep ((",\n").toList ++ ind24) ((o :: os').map jstr) ++
          ('\n' :: ((ind16 ++ ("]").toList) ++ rest)))))).bind fun r2 =>
      parseOptsLoop (r2.length + 1) r2) = some (o :: os', rest)
    rw [show '\n' :: (ind24 ++ (joinSep ((",\n").toList ++ ind24) ((o :: os').map jstr) ++
        ('\n' :: ((ind16 ++ ("]").toList) ++ rest)))) =
      (("\n").toList ++ ind24) ++ (joinSep ((",\n").toList ++ ind24) ((o :: os').map jstr) ++
        ('\n' :: ((ind16 ++ ("]").toList) ++ rest))) by
      rw [show (("\n").toList : Str) = ['\n'] from rfl]
      simp [List.append_assoc]]
    rw [expectTok_append, Option.some_bind]
    apply parseOptsLoop_spec _ _ _ (by simp)
    have hb := joinSep_length_ge ((",\n").toList ++ ind24) jstr
      (fun s => by simp [jstr]) (o :: os')
    simp only [List.length_cons] at hb
    simp only [List.length_append, List.length_cons]
    omega

theorem parseEntry_dumpEntry (e : QEntry) (rest : Str) :
    parseEntry (dumpEntry e ++ rest) = some (e, rest) := by
  have hshape : dumpEntry e ++ rest =
      (ind8 ++ ("\x7b\n").toList ++ ind16 ++ ("\x22q\x22: ").toList) ++
        (jstr e.q ++ (((",\n").toList ++ ind16 ++ ("\x22options\x22: ").toList) ++
          (dumpOpts e.options ++ (((",\n").toList ++ ind16 ++ ("\x22answer\x22: ").toList) ++
            (natStr e.answer ++ (((",\n").toList ++ ind16 ++ ("\x22hint\x22: ").toList) ++
              (jstr e.hint ++ ((("\n").toList ++ ind8 ++ ("\x7d").toList) ++ rest)))))))) := by
    rw [dumpEntry]
    simp [List.append_assoc]
  have hnat : parseNatDigits (natStr e.answer ++ (((",\n").toList ++ ind16 ++
      ("\x22hint\x22: ").toList) ++ (jstr e.hint ++ ((("\n").toList ++ ind8 ++
      ("\x7d").toList) ++ rest)))) = some (e.answer, ((",\n").toList ++ ind16 ++
      ("\x22hint\x22: ").toList) ++ (jstr e.hint ++ ((("\n").toList ++ ind8 ++
      ("\x7d").toList) ++ rest))) := by
    apply parseNatDigits_natStr
    intro c hc
    have hhead : ((((",\n").toList ++ ind16 ++ ("\x22hint\x22: ").toList) ++ (jstr e.hint ++
      ((("\n").toList ++ ind8 ++ ("\x7d").toList) ++ rest))).head?) = some ',' := rfl
    rw [hhead] at hc
    injection hc with hc
    subst hc
    decide
  rw [hshape]
  unfold parseEntry
  simp only [expectTok_append, Option.some_bind, parseQStr_jstr, parseOptsArr_dumpOpts,
    hnat, Option.map_some']

theorem parseEntriesLoop_succ (f : Nat) (s : Str) :
    parseEntriesLoop (f + 1) s =
      (parseEntry s).bind fun p =>
        match p.2 with
        | ',' :: rest2 =>
          (expectTok (("\n").toList) rest2).bind fun rest3 =>
            (parseEntriesLoop f rest3).map fun q => (p.1 :: q.1, q.2)
        | '\n' :: rest2 =>
          match rest2 with
          | ']' :: r3 => some ([p.1], r3)
          | _ => none
        | _ => none := rfl

theorem parseEntriesLoop_spec : ∀ (es : List QEntry) (fuel : Nat) (rest : Str),
    es ≠ [] → es.length ≤ fuel →
    parseEntriesLoop fuel
      (joinSep ((",\n").toList) (es.map dumpEntry) ++ ('\n' :: (']' :: rest))) =
    some (es, rest) := by
  intro es
  induction es with
  | nil => intro _ _ h _; exact absurd rfl h
  | cons e es' ih =>
    intro fuel rest _ hf
    obtain ⟨f, rfl⟩ : ∃ f, fuel = f + 1 := ⟨fuel - 1, by simp at hf; omega⟩
    rcases es' with _ | ⟨e2, es''⟩
    · rw [List.map_cons, List.map_nil, joinSep_single]
      rw [parseEntriesLoop_succ, parseEntry_dumpEntry, Option.some_bind]
      rfl
    · rw [joinSep_map_pair]
      have hshape : (dumpEntry e ++ (",\n").toList ++
          joinSep ((",\n").toList) ((e2 :: es'').map dumpEntry)) ++ ('\n' :: (']' :: rest)) =
        dumpEntry e ++ (',' :: ((("\n").toList) ++
          (joinSep ((",\n").toList) ((e2 :: es'').map dumpEntry) ++
            ('\n' :: (']' :: rest))))) := by
        rw [show ((",\n").toList : Str) = [',', '\n'] from rfl,
          show (("\n").toList : Str) = ['\n'] from rfl]
        simp [List.append_assoc]
      rw [hshape, parseEntriesLoop_succ, parseEntry_dumpEntry, Option.some_bind]
      show ((expectTok (("\n").toList) ((("\n").toList) ++
          (joinSep ((",\n").toList) ((e2 :: es'').map dumpEntry) ++
            ('\n' :: (']' :: rest))))).bind fun rest3 =>
        (parseEntriesLoop f rest3).map fun q => (e :: q.1, q.2)) =
        some (e :: e2 :: es'', rest)
      rw [expectTok_append, Option.some_bind,
        ih f rest (by simp) (by simp at hf ⊢; omega), Option.map_some']

theorem dumpEntry_length_pos (e : QEntry) : 1 ≤ (dumpEntry e).length := by
  have h8 : ind8.length = 8 := rfl
  simp only [dumpEntry, List.length_append]
  omega

theorem parseQuizData_dumps (es : List QEntry) :
    parseQuizData (dumpsQuizData es) = some es := by
  rcases es with _ | ⟨e, es'⟩
  · rfl
  · rw [show dumpsQuizData (e :: es') = ("[\n").toList ++
        joinSep ((",\n").toList) ((e :: es').map dumpEntry) ++ ("\n]").toList from rfl]
    have hshape : (("[\n").toList ++
        joinSep ((",\n").toList) ((e :: es').map dumpEntry) ++ ("\n]").toList) =
      '[' :: ('\n' :: (joinSep ((",\n").toList) ((e :: es').map dumpEntry) ++
        ('\n' :: (']' :: ([] : Str))))) := by
      rw [show (("[\n").toList : Str) = ['[', '\n'] from rfl,
        show (("\n]").toList : Str) = ['\n', ']'] from rfl]
      simp [List.append_assoc]
    rw [hshape]
    have hb : (e :: es').length ≤
        (joinSep ((",\n").toList) ((e :: es').map dumpEntry) ++
          ('\n' :: (']' :: ([] : Str)))).length + 1 := by
      have hj := joinSep_length_ge ((",\n").toList) dumpEntry dumpEntry_length_pos (e :: es')
      simp only [List.length_cons] at hj ⊢
      simp only [List.length_append]
      omega
    show ((parseEntriesLoop
        ((joinSep ((",\n").toList) ((e :: es').map dumpEntry) ++
          ('\n' :: (']' :: ([] : Str)))).length + 1)
        (joinSep ((",\n").toList) ((e :: es').map dumpEntry) ++
          ('\n' :: (']' :: ([] : Str))))).bind fun p =>
      if p.2.isEmpty then some p.1 else none) = some (e :: es')
    rw [parseEntriesLoop_spec _ _ _ (by simp) hb, Option.some_bind]
    rfl

/-- A prefix test only inspects the first `pat.length` characters. -/
theorem isPre_take (pat : Str) : ∀ s : Str, isPre pat s = isPre pat (s.take pat.length) := by
  induction pat with
  | nil => intro s; rfl
  | cons p ps ih =>
    intro s
    cases s with
    | nil => rfl
    | cons c cs => simp only [isPre, List.length_cons, List.take_succ_cons, ih cs]

/-- A successful prefix test bounds the pattern length. -/
theorem isPre_length_le {pat : Str} : ∀ {s : Str}, isPre pat s = true → pat.length ≤ s.length := by
  induction pat with
  | nil => intro s _; simp
  | cons p ps ih =>
    intro s h
    cases s with
    | nil => cases h
    | cons c cs =>
      rw [isPre, Bool.and_eq_true] at h
      have := ih h.2
      simp only [List.length_cons]
      omega

/-- The empty pattern occurs in every string. -/
theorem containsSub_nil_pat (s : Str) : containsSub [] s = true := by
  cases s with
  | nil => rfl
  | cons c r => simp [containsSub, isPre]

/-- A substring occurrence bounds the pattern length. -/
theorem containsSub_length {pat : Str} : ∀ {s : Str}, containsSub pat s = true → pat.length ≤ s.length := by
  intro s
  induction s with
  | nil =>
    intro h
    rw [containsSub, List.isEmpty_iff] at h
    simp [h]
  | cons c rest ih =>
    intro h
    rw [containsSub, Bool.or_eq_true] at h
    rcases h with h | h
    · exact isPre_length_le h
    · have := ih h
      simp only [List.length_cons]
      omega

/-- Occurrence in a concatenation: either the occurrence starts inside the
left block (and then fits inside the left block extended by the first
`pat.length - 1` characters of the right block) or it lies in the right
block. -/
theorem containsSub_chunk (pat A B : Str) :
    containsSub pat (A ++ B) =
      (containsSub pat (A ++ B.take (pat.length - 1)) || containsSub pat B) := by
  induction A with
  | nil =>
    simp only [List.nil_append]
    cases hT : containsSub pat (B.take (pat.length - 1))
    · simp
    · have hle := containsSub_length hT
      have h2 : (B.take (pat.length - 1)).length ≤ pat.length - 1 := List.length_take_le _ _
      have hz : pat.length = 0 := by omega
      have hpat : pat = [] := List.length_eq_zero.mp hz
      subst hpat
      simp [containsSub_nil_pat]
  | cons a A' ih =>
    have h1 : (a :: A') ++ B = a :: (A' ++ B) := rfl
    have h2 : (a :: A') ++ B.take (pat.length - 1) = a :: (A' ++ B.take (pat.length - 1)) := rfl
    rw [h1, h2, containsSub, containsSub, ih]
    have hpre : isPre pat (a :: (A' ++ B)) = isPre pat (a :: (A' ++ B.take (pat.length - 1))) := by
      rw [isPre_take, isPre_take pat (a :: (A' ++ B.take (pat.length - 1)))]
      congr 1
      cases hn : pat.length with
      | zero => rfl
      | succ m =>
        simp only [List.take_succ_cons, List.take_append_eq_append_take, List.take_take]
        have : min (m - A'.length) (m + 1 - 1) = m - A'.length := by
          apply Nat.min_eq_left; omega
        rw [this]
    rw [hpre, Bool.or_assoc]

/-- Chunk rule for refuting an occurrence in a concatenation. -/
theorem containsSub_chunk_false {pat A B : Str}
    (h1 : containsSub pat (A ++ B.take (pat.length - 1)) = false)
    (h2 : containsSub pat B = false) :
    containsSub pat (A ++ B) = false := by
  rw [containsSub_chunk, h1, h2]
  rfl

/-- A failed prefix test is stable under extending a sufficiently long
subject on the right. -/
theorem isPre_false_stable {pat x : Str} (hlen : pat.length ≤ x.length) (y : Str) :
    isPre pat (x ++ y) = isPre pat x := by
  rw [isPre_take, isPre_take pat x]
  congr 1
  rw [List.take_append_eq_append_take]
  have h0 : pat.length - x.length = 0 := by omega
  rw [h0, List.take_zero, List.append_nil]

/-- Prefix tests cancel a common prefix. -/
theorem isPre_cancel (a : Str) : ∀ b c : Str, isPre (a ++ b) (a ++ c) = isPre b c := by
  induction a with
  | nil => intro b c; rfl
  | cons x a' ih =>
    intro b c
    have h1 : (x :: a') ++ b = x :: (a' ++ b) := rfl
    have h2 : (x :: a') ++ c = x :: (a' ++ c) := rfl
    rw [h1, h2, isPre, ih]
    simp

/-- `head?` of a concatenation with a nonempty left block. -/
theorem head?_append_some {A : Str} {c : Char} (h : A.head? = some c) (B : Str) :
    (A ++ B).head? = some c := by
  cases A with
  | nil => cases h
  | cons x t => simpa using h

/-- `getLast?` of a concatenation with a nonempty right block. -/
theorem getLast?_append_some (A : Str) {B : Str} {c : Char} (h : B.getLast? = some c) :
    (A ++ B).getLast? = some c := by
  rw [List.getLast?_append, h]
  rfl

/-- The non-greedy group scan is the prefix up to (and including) the `]`
of the first `];` pair. -/
theorem groupTake_eq : ∀ s : Str, groupTake s = (firstPair ']' ';' s).map (fun j => s.take (j + 1)) := by
  intro s
  induction s with
  | nil => rfl
  | cons x t ih =>
    cases t with
    | nil => rfl
    | cons y rest =>
      rw [groupTake, firstPair]
      by_cases hxy : x = ']' ∧ y = ';'
      · rw [if_pos hxy, if_pos hxy]
        rfl
      · rw [if_neg hxy, if_neg hxy, ih]
        rcases hf : firstPair ']' ';' (y :: rest) with _ | j
        · rfl
        · simp [List.take_succ_cons]

/-- The first adjacent pair is unchanged by extending on the right. -/
theorem firstPair_append_left {a b : Char} : ∀ {d : Str} {j : Nat},
    firstPair a b d = some j → ∀ r : Str, firstPair a b (d ++ r) = some j := by
  intro d
  induction d with
  | nil => intro j h; cases h
  | cons x t ih =>
    intro j h r
    cases t with
    | nil => cases h
    | cons y rest =>
      rw [firstPair] at h
      have hd : (x :: y :: rest) ++ r = x :: y :: (rest ++ r) := rfl
      rw [hd, firstPair]
      by_cases hxy : x = a ∧ y = b
      · rw [if_pos hxy] at h
        rw [if_pos hxy]
        exact h
      · rw [if_neg hxy] at h
        rw [if_neg hxy]
        rcases Option.map_eq_some'.mp h with ⟨j', hj', rfl⟩
        have : (y :: rest) ++ r = y :: (rest ++ r) := rfl
        rw [← this, ih hj' r]
        rfl

/-- An adjacent pair at index `j` needs `j + 2` characters. -/
theorem firstPair_add_two_le {a b : Char} : ∀ {d : Str} {j : Nat},
    firstPair a b d = some j → j + 2 ≤ d.length := by
  intro d
  induction d with
  | nil => intro j h; cases h
  | cons x t ih =>
    intro j h
    cases t with
    | nil => cases h
    | cons y rest =>
      rw [firstPair] at h
      by_cases hxy : x = a ∧ y = b
      · rw [if_pos hxy] at h
        injection h with h
        subst h
        simp
      · rw [if_neg hxy] at h
        rcases Option.map_eq_some'.mp h with ⟨j', hj', rfl⟩
        have := ih hj'
        simp only [List.length_cons] at this ⊢
        omega

/-- When a block has no internal `];` pair and ends in `]`, appending
`;` makes its final `]` the first such pair. -/
theorem firstPair_append_boundary : ∀ {d : Str}, firstPair ']' ';' d = none →
    d.getLast? = some ']' → ∀ t : Str, firstPair ']' ';' (d ++ ';' :: t) = some (d.length - 1) := by
  intro d
  induction d with
  | nil => intro _ hd; cases hd
  | cons x t ih =>
    intro hno hd t'
    cases t with
    | nil =>
      have hx : x = ']' := by
        have h0 : (x :: []).getLast? = some x := rfl
        rw [h0] at hd
        injection hd with hd
      subst hx
      rfl
    | cons y rest =>
      rw [firstPair] at hno
      have hsplit : (x :: y :: rest) ++ ';' :: t' = x :: y :: (rest ++ ';' :: t') := rfl
      rw [hsplit, firstPair]
      by_cases hxy : x = ']' ∧ y = ';'
      · rw [if_pos hxy] at hno
        cases hno
      · rw [if_neg hxy] at hno
        rw [if_neg hxy]
        have hno' : firstPair ']' ';' (y :: rest) = none := Option.map_eq_none'.mp hno
        have hd' : (y :: rest).getLast? = some ']' := by
          rwa [List.getLast?_cons_cons] at hd
        have hrec := ih hno' hd' t'
        have hcons : (y :: rest) ++ ';' :: t' = y :: (rest ++ ';' :: t') := rfl
        rw [← hcons, hrec]
        simp only [List.length_cons, Option.map_some']
        congr 1

/-- One scanning step of the leftmost-match search. -/
theorem containsSub_cons (pat : Str) (c : Char) (rest : Str) :
    containsSub pat (c :: rest) = (isPre pat (c :: rest) || containsSub pat rest) := rfl

/-- One scanning step of the quizData-regex search. -/
theorem findQuizGroup_step (c : Char) (r : Str) :
    findQuizGroup (c :: r) =
      if isPre quizMarkerB (c :: r) then
        match groupTake ((c :: r).drop 17) with
        | some g => some g
        | none => findQuizGroup r
      else findQuizGroup r := rfl

/-- The marker-plus-bracket needle is the marker followed by `[`. -/
theorem quizMarkerB_split : quizMarkerB = quizMarker ++ ['['] := rfl

/-- At the marker itself, the needle matches exactly when a `[` follows. -/
theorem isPre_markerB {v : Str} (hv : v.head? = some '[') :
    isPre quizMarkerB (quizMarker ++ v) = true := by
  cases v with
  | nil => cases hv
  | cons c v' =>
    injection hv with hv
    subst hv
    rw [quizMarkerB_split, isPre_cancel]
    simp [isPre]

/-- Dropping the marker length lands on the captured-group start. -/
theorem drop17_marker (v : Str) : (quizMarker ++ v).drop 17 = v := by
  rw [show (17 : Nat) = quizMarker.length from rfl]
  exact List.drop_left _ _

/-- Leftmost-match characterisation of the quizData regex search: if the
needle `const quizData = [` does not occur before the real marker, the
marker is followed by `[`, and the non-greedy group scan succeeds there,
the search returns exactly that group. -/
theorem findQuizGroup_spec : ∀ (P : Str) {v g : Str},
    containsSub quizMarkerB (P ++ quizMarker) = false →
    v.head? = some '[' → groupTake v = some g →
    findQuizGroup (P ++ (quizMarker ++ v)) = some g := by
  intro P
  induction P with
  | nil =>
    intro v g _ hv hg
    rw [List.nil_append]
    have hsplit : quizMarker ++ v = 'c' :: (("onst quizData = ").toList ++ v) := rfl
    rw [hsplit, findQuizGroup_step, ← hsplit, if_pos (isPre_markerB hv), drop17_marker, hg]
  | cons p P' ih =>
    intro v g hc hv hg
    have hcons : (p :: P') ++ (quizMarker ++ v) = p :: (P' ++ (quizMarker ++ v)) := rfl
    rw [hcons, findQuizGroup_step]
    have hc' : containsSub quizMarkerB (p :: (P' ++ quizMarker)) = false := hc
    rw [containsSub_cons, Bool.or_eq_false_iff] at hc'
    have hlen : quizMarkerB.length ≤ (p :: (P' ++ quizMarker)).length := by
      have h18 : quizMarkerB.length = 18 := rfl
      have h17 : quizMarker.length = 17 := rfl
      simp only [List.length_cons, List.length_append, h18, h17]
      omega
    have hshape : p :: (P' ++ (quizMarker ++ v)) = (p :: (P' ++ quizMarker)) ++ v := by
      simp
    have hfalse : isPre quizMarkerB (p :: (P' ++ (quizMarker ++ v))) = false := by
      rw [hshape, isPre_false_stable hlen, hc'.1]
    rw [if_neg (by simp [hfalse])]
    exact ih hc'.2 hv hg

/-- The serialized quizData array is never empty. -/
theorem dumpsQuizData_ne_nil (es : List QEntry) : dumpsQuizData es ≠ [] := by
  cases es with
  | nil => decide
  | cons e es' =>
    show ("[\n").toList ++ joinSep ((",\n").toList) ((e :: es').map dumpEntry) ++
      ("\n]").toList ≠ []
    intro h
    rcases List.append_eq_nil.mp h with ⟨-, h2⟩
    exact absurd h2 (by decide)

/-- The serialized quizData array starts with `[`. -/
theorem dumpsQuizData_head (es : List QEntry) : (dumpsQuizData es).head? = some '[' := by
  cases es with
  | nil => rfl
  | cons e es' => rfl

/-- The serialized quizData array ends with `]`. -/
theorem dumpsQuizData_getLast (es : List QEntry) : (dumpsQuizData es).getLast? = some ']' := by
  cases es with
  | nil => rfl
  | cons e es' =>
    show (("[\n").toList ++ joinSep ((",\n").toList) ((e :: es').map dumpEntry) ++
      ("\n]").toList).getLast? = some ']'
    exact getLast?_append_some _ (by decide)

/-- The rendered page decomposed around the embedded array. -/
theorem create_html_quiz_shape (qs : List Question) (title email : Str) :
    create_html_quiz qs title email =
      htmlBefore title qs.length email ++ (quizMarker ++
        (dumpsQuizData (createQuizData qs) ++ ';' :: htmlSegTail)) := by
  have hsemi : ((";").toList : Str) ++ htmlSegTail = ';' :: htmlSegTail := rfl
  rw [create_html_quiz]
  simp only [List.append_assoc, hsemi]

/-- Extraction inverts rendering when the needle does not occur before
the marker and the serialized array has no internal `];` pair. -/
theorem extract_create (qs : List Question) (title email : Str)
    (h1 : containsSub quizMarkerB (htmlBefore title qs.length email ++ quizMarker) = false)
    (h2 : firstPair ']' ';' (dumpsQuizData (createQuizData qs)) = none) :
    extractQuizArray (create_html_quiz qs title email) = some (createQuizData qs) := by
  have hvh : (dumpsQuizData (createQuizData qs) ++ ';' :: htmlSegTail).head? = some '[' :=
    head?_append_some (dumpsQuizData_head _) _
  have hfp : firstPair ']' ';' (dumpsQuizData (createQuizData qs) ++ ';' :: htmlSegTail) =
      some ((dumpsQuizData (createQuizData qs)).length - 1) :=
    firstPair_append_boundary h2 (dumpsQuizData_getLast _) _
  have hDpos : 1 ≤ (dumpsQuizData (createQuizData qs)).length := by
    have h := dumpsQuizData_ne_nil (createQuizData qs)
    have h' := List.length_pos.mpr h
    omega
  have hgt : groupTake (dumpsQuizData (createQuizData qs) ++ ';' :: htmlSegTail) =
      some (dumpsQuizData (createQuizData qs)) := by
    rw [groupTake_eq, hfp, Option.map_some']
    have hsucc : (dumpsQuizData (createQuizData qs)).length - 1 + 1 =
        (dumpsQuizData (createQuizData qs)).length := by omega
    rw [hsucc, List.take_left]
  have hfind : findQuizGroup (create_html_quiz qs title email) =
      some (dumpsQuizData (createQuizData qs)) := by
    rw [create_html_quiz_shape]
    exact findQuizGroup_spec _ h1 hvh hgt
  unfold extractQuizArray
  rw [hfind]
  show parseQuizData (dumpsQuizData (createQuizData qs)) = some (createQuizData qs)
  exact parseQuizData_dumps _

/-- The needle `const quizData = [` does not occur in the concrete
rendered prefix for `titleW`, one question and the default address
(checked chunk by chunk via `containsSub_chunk_false`). -/
theorem htmlBeforeW_clean :
    containsSub quizMarkerB (htmlBefore titleW 1 defaultEmail ++ quizMarker) = false := by
  rw [htmlBefore, htmlSegB]
  simp only [List.append_assoc]
  refine containsSub_chunk_false (by decide) ?_
  refine containsSub_chunk_false (by decide) ?_
  refine containsSub_chunk_false (by decide) ?_
  refine containsSub_chunk_false (by decide) ?_
  refine containsSub_chunk_false (by decide) ?_
  refine containsSub_chunk_false (by decide) ?_
  refine containsSub_chunk_false (by decide) ?_
  refine containsSub_chunk_false (by decide) ?_
  refine containsSub_chunk_false (by decide) ?_
  refine containsSub_chunk_false (by decide) ?_
  refine containsSub_chunk_false (by decide) ?_
  refine containsSub_chunk_false (by decide) ?_
  refine containsSub_chunk_false (by decide) ?_
  decide

/-- C3 (amended): rendering then re-extracting the embedded quizData
array reproduces every question's prompt, option list, correct index and
hint, provided (1) the needle `const quizData = [` does not occur in the
rendered text before the real marker and (2) the serialized array
contains no internal `];` character pair (otherwise the non-greedy
pattern truncates the group); the entries carry exactly the questions'
fields, with `correct_answer` defaulted to 0. -/
theorem claim_C3 (qs : List Question) (title email : Str)
    (h1 : containsSub quizMarkerB (htmlBefore title qs.length email ++ quizMarker) = false)
    (h2 : firstPair ']' ';' (dumpsQuizData (createQuizData qs)) = none) :
    extractQuizArray (create_html_quiz qs title email) = some (createQuizData qs) ∧
    (createQuizData qs).map QEntry.q = qs.map Question.question ∧
    (createQuizData qs).map QEntry.options = qs.map Question.options ∧
    (createQuizData qs).map QEntry.answer = qs.map (fun qu => qu.correct_answer.getD 0) ∧
    (createQuizData qs).map QEntry.hint = qs.map Question.hint := by
  refine ⟨extract_create qs title email h1 h2, ?_, ?_, ?_, ?_⟩ <;>
    (rw [createQuizData, List.map_map]; rfl)

/-- Witness for C3 on the one-question document `docW`: both side
conditions hold and extraction returns exactly the rendered entries. -/
theorem claim_C3_witness :
    containsSub quizMarkerB (htmlBefore titleW docW.length defaultEmail ++ quizMarker) = false ∧
    firstPair ']' ';' (dumpsQuizData (createQuizData docW)) = none ∧
    extractQuizArray (create_html_quiz docW titleW defaultEmail) = some (createQuizData docW) := by
  have h1 : containsSub quizMarkerB
      (htmlBefore titleW docW.length defaultEmail ++ quizMarker) = false := htmlBeforeW_clean
  have h2 : firstPair ']' ';' (dumpsQuizData (createQuizData docW)) = none := by decide
  exact ⟨h1, h2, (claim_C3 docW titleW defaultEmail h1 h2).1⟩

/-- Counterexample to the unconditional round-trip claim: for the
one-question document `docX`, whose hint contains the two characters
`];`, the non-greedy group stops inside the hint string, the truncated
group fails to JSON-decode, and extraction does not reproduce the
rendered entries. -/
theorem claim_C3_counterexample :
    extractQuizArray (create_html_quiz docX titleW defaultEmail) ≠
      some (createQuizData docX) := by
  have hfpD : firstPair ']' ';' (dumpsQuizData (createQuizData docX)) = some 275 := by decide
  have hfp : firstPair ']' ';' (dumpsQuizData (createQuizData docX) ++ ';' :: htmlSegTail) =
      some 275 := firstPair_append_left hfpD _
  have hlen : 275 + 2 ≤ (dumpsQuizData (createQuizData docX)).length := firstPair_add_two_le hfpD
  have hgt : groupTake (dumpsQuizData (createQuizData docX) ++ ';' :: htmlSegTail) =
      some ((dumpsQuizData (createQuizData docX)).take 276) := by
    rw [groupTake_eq, hfp, Option.map_some']
    rw [List.take_append_eq_append_take]
    have h0 : 276 - (dumpsQuizData (createQuizData docX)).length = 0 := by omega
    rw [h0, List.take_zero, List.append_nil]
  have hvh : (dumpsQuizData (createQuizData docX) ++ ';' :: htmlSegTail).head? = some '[' :=
    head?_append_some (dumpsQuizData_head _) _
  have hfind : findQuizGroup (create_html_quiz docX titleW defaultEmail) =
      some ((dumpsQuizData (createQuizData docX)).take 276) := by
    rw [create_html_quiz_shape]
    exact findQuizGroup_spec _ htmlBeforeW_clean hvh hgt
  have hex : extractQuizArray (create_html_quiz docX titleW defaultEmail) = none := by
    unfold extractQuizArray
    rw [hfind]
    show parseQuizData ((dumpsQuizData (createQuizData docX)).take 276) = none
    decide
  rw [hex]
  simp
